import Mathlib

/-!
Verification of the freesnow forecast-correction core.

This file gives a shallow embedding, in Lean 4, of the parts of the
freesnow code base that the specification talks about:

* the resilient fetch layer (src/data/retryFetch.ts, in the variant that
  carries the cacheKey helper): retry classification, exponential backoff
  with Retry-After hints, response caching and in-flight de-duplication;
* the multi-model statistical aggregator (src/utils/modelAverage.ts):
  mean / median / mode / circular mean and the union-of-timestamps merge;
* the NWS blend (blendWithNWS in src/utils/modelAverage.ts);
* the orchestrator fallback logic (fetchMultiModelForecast in
  src/data/openmeteo.ts);
* the snow recalculation engine (recalcHourly), whose source file is not
  part of the snapshot and is therefore modelled from the specification.

JavaScript numbers are modelled as rationals (ℚ) except where the code
does genuine trigonometry (the circular mean), which is modelled over ℝ.
Nullable array entries are modelled as Option ℚ.  Exceptions are modelled
with Except / Option.  Asynchronous sub-calls are modelled by passing the
awaited outcome of the sub-call as an explicit argument.
-/

/- ──────────────────────────────────────────────────────────────────────
   Fetch core (src/data/retryFetch.ts).
   ────────────────────────────────────────────────────────────────────── -/

/-- The subset of a fetch RequestInit the cache key construction looks at:
an optional HTTP method string and an optional body string. -/
structure RequestInit where
  method : Option String
  body : Option String

/-- JavaScript truthiness test for an optional string: undefined / null and
the empty string are falsy (this is the `!init.body` test in cacheKey). -/
def jsFalsyStr : Option String → Bool
  | none => true
  | some s => s = ""

/-- Embeds cacheKey (retryFetch.ts): no init means the URL alone; a GET
with no (truthy) body also collapses to the URL; anything else is
METHOD:url:body. -/
def cacheKey (url : String) (init : Option RequestInit) : String :=
  match init with
  | none => url
  | some i =>
    let m := (i.method.map String.toUpper).getD "GET"
    if m = "GET" && jsFalsyStr i.body then url
    else m ++ ":" ++ url ++ ":" ++ i.body.getD ""

/-- Embeds shouldRetryStatus: HTTP 429 and every status at or above 500
are retriable. -/
def shouldRetryStatus (status : Nat) : Bool :=
  status == 429 || status ≥ 500

/-- A Response is ok exactly when its status is in 200..299 (the res.ok
test of the fetch API). -/
def resOk (status : Nat) : Bool :=
  200 ≤ status && status ≤ 299

/-- JavaScript Math.round for the non-negative values produced here:
round half up. -/
def jsRound (q : ℚ) : ℚ := (⌊q + 1/2⌋ : ℤ)

/-- What the two JavaScript parsers extract from a Retry-After header
string: numVal is Number(value) when that is finite (none for NaN and
infinities), dateVal is Date.parse(value) in ms when that is not NaN. -/
structure RetryAfterHeader where
  numVal : Option ℚ
  dateVal : Option ℚ

/-- The Date.parse fallback branch of parseRetryAfterMs: an unparsable
date is treated as absent, otherwise the delay until that timestamp,
clamped at zero. -/
def parseRetryAfterDate (now : ℚ) (h : RetryAfterHeader) : Option ℚ :=
  match h.dateVal with
  | none => none
  | some retryAt => some (max 0 (retryAt - now))

/-- Embeds parseRetryAfterMs: a missing header is absent; a finite
non-negative numeric value is a delay in seconds (rounded to ms);
otherwise the value is tried as an absolute timestamp. -/
def parseRetryAfterMs (now : ℚ) : Option RetryAfterHeader → Option ℚ
  | none => none
  | some h =>
    match h.numVal with
    | some seconds =>
      if 0 ≤ seconds then some (jsRound (seconds * 1000))
      else parseRetryAfterDate now h
    | none => parseRetryAfterDate now h

/-- Embeds retryDelayMs: exponential backoff min(base · 2^attempt, max),
overridden upward (never downward) by a parsed Retry-After hint. -/
def retryDelayMs (now : ℚ) (attempt : Nat) (baseDelayMs maxDelayMs : ℚ)
    (retryAfterHeader : Option RetryAfterHeader) : ℚ :=
  let exponential := min (baseDelayMs * 2 ^ attempt) maxDelayMs
  let retryAfter := parseRetryAfterMs now retryAfterHeader
  max exponential (retryAfter.getD 0)

/-- One network attempt's outcome, as seen by the retry loop of
fetchJSONWithRetry: either the fetch call threw (transport error, with
the thrown error's message), or it produced a Response with a status,
a status text, an optional Retry-After header, and a parsed JSON body. -/
inductive AttemptOutcome (α : Type) where
  | transportError (msg : String)
  | response (status : Nat) (statusText : String)
      (retryAfter : Option RetryAfterHeader) (body : α)

/-- The error message the loop throws for a non-ok response:
label ++ " " ++ status ++ ": " ++ statusText. -/
def httpErrorMsg (label : String) (status : Nat) (statusText : String) : String :=
  label ++ " " ++ toString status ++ ": " ++ statusText

/-- Classifies an outcome the loop retries on: a transport error, or a
non-ok response whose status is retriable (429 / 5xx). -/
def isRetriableFailure {α : Type} : AttemptOutcome α → Bool
  | .transportError _ => true
  | .response status _ _ _ => !resOk status && shouldRetryStatus status

/-- The retry loop of fetchJSONWithRetry, one iteration per unit of fuel.
attempts gives the outcome of the i-th network attempt; attempt is the
loop counter; fuel is maxRetries + 1 - attempt at every reachable call.
Returns the settled result together with the number of network attempts
performed.  The fuel-exhausted branch is the line after the loop
(throw lastError ?? new Error(label + " request failed")). -/
def runAttempts {α : Type} (attempts : Nat → AttemptOutcome α) (label : String)
    (maxRetries : Nat) : Nat → Nat → Option String → Except String α × Nat
  | _, 0, lastError => (.error (lastError.getD (label ++ " request failed")), 0)
  | attempt, fuel + 1, _ =>
    match attempts attempt with
    | .transportError msg =>
      if attempt == maxRetries then (.error msg, 1)
      else
        let r := runAttempts attempts label maxRetries (attempt + 1) fuel (some msg)
        (r.1, r.2 + 1)
    | .response status statusText _ body =>
      if resOk status then (.ok body, 1)
      else
        let httpError := httpErrorMsg label status statusText
        if !shouldRetryStatus status || attempt == maxRetries then
          (.error httpError, 1)
        else
          let r := runAttempts attempts label maxRetries (attempt + 1) fuel (some httpError)
          (r.1, r.2 + 1)

/-- Embeds the doFetch retry loop of fetchJSONWithRetry (the per-call
network path, caching aside): run attempts 0 .. maxRetries. -/
def fetchJSONWithRetry {α : Type} (attempts : Nat → AttemptOutcome α)
    (label : String) (maxRetries : Nat) : Except String α × Nat :=
  runAttempts attempts label maxRetries 0 (maxRetries + 1) none

/- ──────────────────────────────────────────────────────────────────────
   Response cache (src/data/retryFetch.ts, cacheTtlMs path).
   ────────────────────────────────────────────────────────────────────── -/

/-- A cached response: the parsed payload plus its absolute expiry. -/
structure CacheEntry (α : Type) where
  data : α
  expiresAt : ℚ

/-- JavaScript Map.set as a function update. -/
def mapSet {β : Type} (m : String → Option β) (k : String) (v : β) :
    String → Option β :=
  fun x => if x = k then some v else m x

/-- The cache-miss continuation of fetchJSONWithRetry with caching on:
run the fetch; on success store the payload under the key with expiry
nowDone + ttl; failures are never cached.  netResult stands for the
settled outcome of doFetch(), nowDone for Date.now() at settlement. -/
def fetchCallMiss {α : Type} (cache : String → Option (CacheEntry α))
    (key : String) (cacheTtlMs nowDone : ℚ) (netResult : Except String α) :
    Except String α × (String → Option (CacheEntry α)) × Bool :=
  match netResult with
  | .ok v => (.ok v, mapSet cache key ⟨v, nowDone + cacheTtlMs⟩, true)
  | .error e => (.error e, cache, true)

/-- Embeds one sequential call to fetchJSONWithRetry as a cache
transition: with caching enabled, a live entry under the cache key is
returned with no network attempt; otherwise (and always when
cacheTtlMs = 0) the network result decides.  The boolean reports whether
the network was attempted.  now is Date.now() at the cache check. -/
def fetchCall {α : Type} (cache : String → Option (CacheEntry α))
    (url : String) (init : Option RequestInit) (cacheTtlMs now nowDone : ℚ)
    (netResult : Except String α) :
    Except String α × (String → Option (CacheEntry α)) × Bool :=
  if 0 < cacheTtlMs then
    let key := cacheKey url init
    match cache key with
    | some cached =>
      if now < cached.expiresAt then (.ok cached.data, cache, false)
      else fetchCallMiss cache key cacheTtlMs nowDone netResult
    | none => fetchCallMiss cache key cacheTtlMs nowDone netResult
  else (netResult, cache, true)

/- ──────────────────────────────────────────────────────────────────────
   In-flight de-duplication (src/data/retryFetch.ts).

   JavaScript is single threaded: the section of fetchJSONWithRetry from
   the cache check through inflightRequests.set runs atomically.  A group
   of N concurrent callers is therefore a sequence of atomic arrivals,
   each of which either joins the promise already registered under its
   key or starts a new network request and registers it.
   ────────────────────────────────────────────────────────────────────── -/

/-- Scheduler state while calls are in flight: the inflight map keyed by
cache key (promise identities as naturals), a fresh-identity counter, and
the number of underlying network request sequences started. -/
structure DedupState where
  inflight : String → Option Nat
  nextId : Nat
  networkStarts : Nat

/-- One caller arriving at fetchJSONWithRetry with caching enabled and no
live cache entry for its key: join the registered in-flight promise if
one exists, else start the network request and register a fresh promise.
Returns the promise the caller awaits. -/
def arrive (st : DedupState) (key : String) : DedupState × Nat :=
  match st.inflight key with
  | some p => (st, p)
  | none =>
    ({ inflight := mapSet st.inflight key st.nextId
       nextId := st.nextId + 1
       networkStarts := st.networkStarts + 1 }, st.nextId)

/-- A batch of concurrent arrivals, processed in scheduling order;
returns the final state and each caller's awaited promise. -/
def arriveAll (st : DedupState) : List String → DedupState × List Nat
  | [] => (st, [])
  | k :: ks =>
    let first := arrive st k
    let rest := arriveAll first.1 ks
    (rest.1, first.2 :: rest.2)

/- ──────────────────────────────────────────────────────────────────────
   Statistical aggregator (src/utils/modelAverage.ts).
   ────────────────────────────────────────────────────────────────────── -/

/-- Embeds mean: arithmetic mean of a number array, 0 when empty. -/
def mean (values : List ℚ) : ℚ :=
  if values.length = 0 then 0 else values.sum / values.length

/-- Embeds median: sort ascending, middle element, or the mean of the two
middle elements for even length; 0 when empty.  mid is
Math.floor(length / 2), i.e. natural division. -/
def median (values : List ℚ) : ℚ :=
  if values.length = 0 then 0
  else
    let sorted := values.insertionSort (· ≤ ·)
    let mid := sorted.length / 2
    if sorted.length % 2 = 0 then (sorted.getD (mid - 1) 0 + sorted.getD mid 0) / 2
    else sorted.getD mid 0

/-- Embeds r2 (+n.toFixed(2)): round to two decimal places, half up. -/
def r2 (n : ℚ) : ℚ := (⌊n * 100 + 1/2⌋ : ℤ) / 100

/-- The update of the mode loop's counts map (counts.set(v, c)). -/
def countsUpd (counts : ℚ → Nat) (v : ℚ) (c : Nat) : ℚ → Nat :=
  fun x => if x = v then c else counts x

/-- The loop of mode: bump the count of each value in turn, replacing the
running best only on a strictly larger count. -/
def modeLoop : List ℚ → (ℚ → Nat) → ℚ → Nat → ℚ
  | [], _, best, _ => best
  | v :: rest, counts, best, bestCount =>
    let c := counts v + 1
    let counts' := countsUpd counts v c
    if bestCount < c then modeLoop rest counts' v c
    else modeLoop rest counts' best bestCount

/-- Embeds mode: most common value of a number array (0 when empty),
starting from best = values[0] with bestCount = 0. -/
def mode (values : List ℚ) : ℚ :=
  match values with
  | [] => 0
  | v0 :: _ => modeLoop values (fun _ => 0) v0 0

/-- Degrees to radians, (d * Math.PI) / 180. -/
noncomputable def toRad (d : ℝ) : ℝ := d * Real.pi / 180

/-- JavaScript truncation toward zero (the implicit integer part used by
the % operator on numbers). -/
noncomputable def jsTrunc (x : ℝ) : ℝ := if 0 ≤ x then (⌊x⌋ : ℤ) else (⌈x⌉ : ℤ)

/-- The JavaScript % operator on numbers: remainder with the sign of the
dividend, a - b * trunc(a / b). -/
noncomputable def jsMod (a b : ℝ) : ℝ := a - b * jsTrunc (a / b)

/-- The sine component sum of meanAngle's loop. -/
noncomputable def sinSumDeg (degrees : List ℝ) : ℝ :=
  degrees.foldl (fun acc d => acc + Real.sin (toRad d)) 0

/-- The cosine component sum of meanAngle's loop. -/
noncomputable def cosSumDeg (degrees : List ℝ) : ℝ :=
  degrees.foldl (fun acc d => acc + Real.cos (toRad d)) 0

/-- The two-argument arctangent Math.atan2(y, x), as the argument of the
complex number x + y·i (range (-π, π]). -/
noncomputable def atan2 (y x : ℝ) : ℝ := Complex.arg ⟨x, y⟩

/-- Embeds meanAngle: vector-decomposition average of angles in degrees,
normalized to [0, 360) by ((avg % 360) + 360) % 360; 0 when empty. -/
noncomputable def meanAngle (degrees : List ℝ) : ℝ :=
  if degrees.length = 0 then 0
  else
    let avg := atan2 (sinSumDeg degrees / degrees.length)
        (cosSumDeg degrees / degrees.length) * 180 / Real.pi
    jsMod (jsMod avg 360 + 360) 360

/-- The merged wind-direction entry is r2 applied to the circular mean;
toFixed(2) always yields an exact two-decimal value, hence a rational. -/
noncomputable def r2MeanAngle (degrees : List ℚ) : ℚ :=
  (⌊meanAngle (degrees.map (fun q => (q : ℝ))) * 100 + 1/2⌋ : ℤ) / 100

/-- One model's raw hourly series (the RawHourly interface): parallel
arrays of nullable numbers over a shared time axis; snow_depth may be
absent altogether. -/
structure RawHourly where
  time : List String
  temperature_2m : List (Option ℚ)
  apparent_temperature : List (Option ℚ)
  relative_humidity_2m : List (Option ℚ)
  precipitation : List (Option ℚ)
  rain : List (Option ℚ)
  snowfall : List (Option ℚ)
  precipitation_probability : List (Option ℚ)
  weather_code : List (Option ℚ)
  wind_speed_10m : List (Option ℚ)
  wind_direction_10m : List (Option ℚ)
  wind_gusts_10m : List (Option ℚ)
  freezing_level_height : List (Option ℚ)
  snow_depth : Option (List (Option ℚ))

/-- One model's raw daily series (the RawDaily interface). -/
structure RawDaily where
  time : List String
  weather_code : List (Option ℚ)
  temperature_2m_max : List (Option ℚ)
  temperature_2m_min : List (Option ℚ)
  apparent_temperature_max : List (Option ℚ)
  apparent_temperature_min : List (Option ℚ)
  uv_index_max : List (Option ℚ)
  precipitation_sum : List (Option ℚ)
  rain_sum : List (Option ℚ)
  snowfall_sum : List (Option ℚ)
  precipitation_probability_max : List (Option ℚ)
  wind_speed_10m_max : List (Option ℚ)
  wind_gusts_10m_max : List (Option ℚ)

/-- JavaScript array sort compares strings by code units; on the
Unicode-scalar strings modelled here this is lexicographic order on the
character lists. -/
def jsLeChars : List Char → List Char → Bool
  | [], _ => true
  | _ :: _, [] => false
  | a :: as, b :: bs =>
    if a < b then true else if b < a then false else jsLeChars as bs

/-- Lexicographic string comparison used by [...timeSet].sort(). -/
def jsStrLe (a b : String) : Bool := jsLeChars a.data b.data

/-- The sorted union of the models' time axes: every timestamp inserted
into one set (first insertion wins, duplicates dropped), then sorted. -/
def sortedUnionTimes (tss : List (List String)) : List String :=
  List.insertionSort (fun a b => jsStrLe a b) (tss.foldl (· ++ ·) []).dedup

/-- The index the per-model Map from timestamp to row index yields:
Map.set overwrites, so the last row with that timestamp wins. -/
def timeIndex (ts : List String) (t : String) : Option Nat :=
  (ts.enum.filterMap (fun p => if p.2 = t then some p.1 else none)).getLast?

/-- Reads field entry idx of one model, the null / out-of-range guard
included (undefined and null entries contribute nothing). -/
def entryAt (arr : List (Option ℚ)) : Option Nat → Option ℚ
  | none => none
  | some i => arr.getD i none

/-- The contributing values of one field at timestamp t, in model order:
models lacking t, and null entries, are skipped. -/
def collectField {σ : Type} (models : List σ) (timeOf : σ → List String)
    (f : σ → List (Option ℚ)) (t : String) : List ℚ :=
  models.filterMap (fun m => entryAt (f m) (timeIndex (timeOf m) t))

/-- One merged hourly output row, before it is pushed onto the parallel
output arrays.  snow_depth is some value exactly when any model carried a
snow_depth array. -/
structure HourlyRow where
  time : String
  temperature_2m : ℚ
  apparent_temperature : ℚ
  relative_humidity_2m : ℚ
  precipitation : ℚ
  rain : ℚ
  snowfall : ℚ
  precipitation_probability : ℚ
  weather_code : ℚ
  wind_speed_10m : ℚ
  wind_direction_10m : ℚ
  wind_gusts_10m : ℚ
  freezing_level_height : ℚ
  snow_depth : Option ℚ

/-- The body of averageHourlyArrays' loop over the sorted time union:
collect each field's contributing values; if no model has a usable
temperature the step is skipped, otherwise one merged row is produced
(median for precipitation-like fields, mode for the weather code,
circular mean for wind direction, mean elsewhere, with the documented
fallbacks for secondary fields). -/
noncomputable def hourlyRow (models : List RawHourly) (hasSnowDepth : Bool)
    (t : String) : Option HourlyRow :=
  let temps := collectField models RawHourly.time (·.temperature_2m) t
  if temps.isEmpty then none
  else
    let apparents := collectField models RawHourly.time (·.apparent_temperature) t
    let humidities := collectField models RawHourly.time (·.relative_humidity_2m) t
    let precips := collectField models RawHourly.time (·.precipitation) t
    let rains := collectField models RawHourly.time (·.rain) t
    let snowfalls := collectField models RawHourly.time (·.snowfall) t
    let precipProbs := collectField models RawHourly.time (·.precipitation_probability) t
    let wcodes := collectField models RawHourly.time (·.weather_code) t
    let winds := collectField models RawHourly.time (·.wind_speed_10m) t
    let windDirs := collectField models RawHourly.time (·.wind_direction_10m) t
    let gusts := collectField models RawHourly.time (·.wind_gusts_10m) t
    let freezingLevels := collectField models RawHourly.time (·.freezing_level_height) t
    let snowDepths := collectField models RawHourly.time (fun m => m.snow_depth.getD []) t
    some
      { time := t
        temperature_2m := r2 (mean temps)
        apparent_temperature :=
          if !apparents.isEmpty then r2 (mean apparents) else r2 (mean temps)
        relative_humidity_2m := if !humidities.isEmpty then r2 (mean humidities) else 0
        precipitation := if !precips.isEmpty then r2 (median precips) else 0
        rain := if !rains.isEmpty then r2 (median rains) else 0
        snowfall := if !snowfalls.isEmpty then r2 (median snowfalls) else 0
        precipitation_probability :=
          if !precipProbs.isEmpty then r2 (mean precipProbs) else 0
        weather_code := if !wcodes.isEmpty then mode wcodes else 0
        wind_speed_10m := if !winds.isEmpty then r2 (mean winds) else 0
        wind_direction_10m := if !windDirs.isEmpty then r2MeanAngle windDirs else 0
        wind_gusts_10m := if !gusts.isEmpty then r2 (mean gusts) else 0
        freezing_level_height :=
          if !freezingLevels.isEmpty then r2 (mean freezingLevels) else 0
        snow_depth :=
          if hasSnowDepth then
            some (if !snowDepths.isEmpty then r2 (mean snowDepths) else 0)
          else none }

/-- Embeds averageHourlyArrays.  An empty model list throws (none); a
single model is returned unchanged; otherwise the merged rows over the
sorted union of time axes are transposed back into parallel arrays.
snow_depth appears in the output exactly when some model carries a
non-empty snow_depth array. -/
noncomputable def averageHourlyArrays (models : List RawHourly) : Option RawHourly :=
  match models with
  | [] => none
  | [m] => some m
  | _ =>
    let times := sortedUnionTimes (models.map (·.time))
    let hasSnowDepth := models.any (fun m => (m.snow_depth.getD []).length > 0)
    let rows := times.filterMap (hourlyRow models hasSnowDepth)
    some
      { time := rows.map (·.time)
        temperature_2m := rows.map (fun r => some r.temperature_2m)
        apparent_temperature := rows.map (fun r => some r.apparent_temperature)
        relative_humidity_2m := rows.map (fun r => some r.relative_humidity_2m)
        precipitation := rows.map (fun r => some r.precipitation)
        rain := rows.map (fun r => some r.rain)
        snowfall := rows.map (fun r => some r.snowfall)
        precipitation_probability := rows.map (fun r => some r.precipitation_probability)
        weather_code := rows.map (fun r => some r.weather_code)
        wind_speed_10m := rows.map (fun r => some r.wind_speed_10m)
        wind_direction_10m := rows.map (fun r => some r.wind_direction_10m)
        wind_gusts_10m := rows.map (fun r => some r.wind_gusts_10m)
        freezing_level_height := rows.map (fun r => some r.freezing_level_height)
        snow_depth :=
          if hasSnowDepth then some (rows.map (fun r => some (r.snow_depth.getD 0)))
          else none }

/-- One merged daily output row. -/
structure DailyRow where
  time : String
  weather_code : ℚ
  temperature_2m_max : ℚ
  temperature_2m_min : ℚ
  apparent_temperature_max : ℚ
  apparent_temperature_min : ℚ
  uv_index_max : ℚ
  precipitation_sum : ℚ
  rain_sum : ℚ
  snowfall_sum : ℚ
  precipitation_probability_max : ℚ
  wind_speed_10m_max : ℚ
  wind_gusts_10m_max : ℚ

/-- The body of averageDailyArrays' loop: days where no model has a
usable temperature maximum are skipped; minimum-dependent fields fall
back to the corresponding maxima. -/
def dailyRow (models : List RawDaily) (t : String) : Option DailyRow :=
  let tmaxs := collectField models RawDaily.time (·.temperature_2m_max) t
  if tmaxs.isEmpty then none
  else
    let wcodes := collectField models RawDaily.time (·.weather_code) t
    let tmins := collectField models RawDaily.time (·.temperature_2m_min) t
    let atMaxs := collectField models RawDaily.time (·.apparent_temperature_max) t
    let atMins := collectField models RawDaily.time (·.apparent_temperature_min) t
    let uvs := collectField models RawDaily.time (·.uv_index_max) t
    let precipSums := collectField models RawDaily.time (·.precipitation_sum) t
    let rainSums := collectField models RawDaily.time (·.rain_sum) t
    let snowSums := collectField models RawDaily.time (·.snowfall_sum) t
    let ppMaxs := collectField models RawDaily.time (·.precipitation_probability_max) t
    let wsMaxs := collectField models RawDaily.time (·.wind_speed_10m_max) t
    let wgMaxs := collectField models RawDaily.time (·.wind_gusts_10m_max) t
    some
      { time := t
        weather_code := if !wcodes.isEmpty then mode wcodes else 0
        temperature_2m_max := r2 (mean tmaxs)
        temperature_2m_min := if !tmins.isEmpty then r2 (mean tmins) else r2 (mean tmaxs)
        apparent_temperature_max :=
          if !atMaxs.isEmpty then r2 (mean atMaxs) else r2 (mean tmaxs)
        apparent_temperature_min :=
          if !atMins.isEmpty then r2 (mean atMins)
          else r2 (mean (if !tmins.isEmpty then tmins else tmaxs))
        uv_index_max := if !uvs.isEmpty then r2 (mean uvs) else 0
        precipitation_sum := if !precipSums.isEmpty then r2 (median precipSums) else 0
        rain_sum := if !rainSums.isEmpty then r2 (median rainSums) else 0
        snowfall_sum := if !snowSums.isEmpty then r2 (median snowSums) else 0
        precipitation_probability_max := if !ppMaxs.isEmpty then r2 (mean ppMaxs) else 0
        wind_speed_10m_max := if !wsMaxs.isEmpty then r2 (mean wsMaxs) else 0
        wind_gusts_10m_max := if !wgMaxs.isEmpty then r2 (mean wgMaxs) else 0 }

/-- Embeds averageDailyArrays, with the same structure as the hourly
merge. -/
def averageDailyArrays (models : List RawDaily) : Option RawDaily :=
  match models with
  | [] => none
  | [m] => some m
  | _ =>
    let times := sortedUnionTimes (models.map (·.time))
    let rows := times.filterMap (dailyRow models)
    some
      { time := rows.map (·.time)
        weather_code := rows.map (fun r => some r.weather_code)
        temperature_2m_max := rows.map (fun r => some r.temperature_2m_max)
        temperature_2m_min := rows.map (fun r => some r.temperature_2m_min)
        apparent_temperature_max := rows.map (fun r => some r.apparent_temperature_max)
        apparent_temperature_min := rows.map (fun r => some r.apparent_temperature_min)
        uv_index_max := rows.map (fun r => some r.uv_index_max)
        precipitation_sum := rows.map (fun r => some r.precipitation_sum)
        rain_sum := rows.map (fun r => some r.rain_sum)
        snowfall_sum := rows.map (fun r => some r.snowfall_sum)
        precipitation_probability_max :=
          rows.map (fun r => some r.precipitation_probability_max)
        wind_speed_10m_max := rows.map (fun r => some r.wind_speed_10m_max)
        wind_gusts_10m_max := rows.map (fun r => some r.wind_gusts_10m_max) }

/- ──────────────────────────────────────────────────────────────────────
   NWS blending (blendWithNWS in src/utils/modelAverage.ts).
   ────────────────────────────────────────────────────────────────────── -/

/-- One recalculated model day handed to the blend. -/
structure ModelSnowDay where
  date : String
  snowfallSum : ℚ

/-- Embeds blendWithNWS: for each model day, blend with the NWS value
when one exists for that date (rounded to two decimals), otherwise keep
the model value as-is.  The result Map is modelled as a lookup
function built by successive Map.set updates. -/
def blendWithNWS (modelSnowDays : List ModelSnowDay)
    (nwsSnowMap : String → Option ℚ) (nwsWeight : ℚ) : String → Option ℚ :=
  let modelWeight := 1 - nwsWeight
  modelSnowDays.foldl
    (fun result day =>
      match nwsSnowMap day.date with
      | some nwsValue =>
        mapSet result day.date (r2 (modelWeight * day.snowfallSum + nwsWeight * nwsValue))
      | none => mapSet result day.date day.snowfallSum)
    (fun _ => none)

/- ──────────────────────────────────────────────────────────────────────
   Recalculation engine.
   ────────────────────────────────────────────────────────────────────── -/

/-- Modelled from the spec: the freezing-level transition-band width used
to split rain and snow near the freezing boundary.  The source file
src/utils/snowRecalc.ts is absent from the snapshot; the spec leaves the
numeric width as a named configuration constant, so a representative
value (in metres) is fixed here. -/
def FREEZING_TRANSITION_BAND : ℚ := 300

/-- Modelled from the spec: temperature-dependent snow-liquid ratio,
10:1 at 0 °C rising linearly to 20:1 at and below -15 °C
(src/utils/snowRecalc.ts is absent from the snapshot). -/
def slrForTemperature (t : ℚ) : ℚ :=
  if 0 ≤ t then 10
  else if t ≤ -15 then 20
  else 10 + (-t) * (2 / 3)

/-- Modelled from the spec: relative humidity at or above 80 % raises the
SLR by 10-15 % (represented by the factor 1.15); an absent humidity input
applies no adjustment (src/utils/snowRecalc.ts is absent from the
snapshot). -/
def humidityFactor : Option ℚ → ℚ
  | none => 1
  | some h => if 80 ≤ h then 1.15 else 1

/-- Modelled from the spec: wind speed at or above 30 km/h lowers the SLR
by 10-20 % (represented by the factor 0.85); an absent wind input applies
no adjustment (src/utils/snowRecalc.ts is absent from the snapshot). -/
def windFactor : Option ℚ → ℚ
  | none => 1
  | some w => if 30 ≤ w then 0.85 else 1

/-- Modelled from the spec: the adjusted snow-liquid ratio, the
temperature-dependent base ratio scaled by the humidity and wind
adjustments. -/
def adjustedSLR (t : ℚ) (humidity windSpeed : Option ℚ) : ℚ :=
  slrForTemperature t * humidityFactor humidity * windFactor windSpeed

/-- Modelled from the spec: the fraction of the hour's precipitation that
falls as snow at the station.  At or above the freezing level everything
is snow; below the transition band everything is rain; within the band
the split is proportional to how far into the band the station sits
(src/utils/snowRecalc.ts is absent from the snapshot). -/
def snowFraction (stationElevation freezingLevelHeight : ℚ) : ℚ :=
  if freezingLevelHeight ≤ stationElevation then 1
  else if stationElevation ≤ freezingLevelHeight - FREEZING_TRANSITION_BAND then 0
  else (stationElevation - (freezingLevelHeight - FREEZING_TRANSITION_BAND))
      / FREEZING_TRANSITION_BAND

/-- The per-hour inputs of the recalculation engine. -/
structure RecalcInput where
  precipitation : ℚ
  rain : ℚ
  snowfall : ℚ
  temperature : ℚ
  freezingLevelHeight : ℚ
  relativeHumidity : Option ℚ
  windSpeed : Option ℚ

/-- The corrected rain/snow split for one hour. -/
structure RecalcOutput where
  snowfall : ℚ
  rain : ℚ

/-- Modelled from the spec: recalcHourly of src/utils/snowRecalc.ts
(absent from the snapshot).  The snow-eligible liquid is the
precipitation times the elevation-vs-freezing-level fraction; snowfall
depth is that liquid times the adjusted SLR; rain is the remaining
liquid. -/
def recalcHourly (inp : RecalcInput) (stationElevation : ℚ) : RecalcOutput :=
  let frac := snowFraction stationElevation inp.freezingLevelHeight
  let liquid := inp.precipitation * frac
  { snowfall := liquid * adjustedSLR inp.temperature inp.relativeHumidity inp.windSpeed
    rain := inp.precipitation - liquid }

/-- The corrected totals of one calendar day. -/
structure DailySums where
  snowfallSum : ℚ
  rainSum : ℚ

/-- Modelled from the spec: recalcDailyFromHourly of
src/utils/snowRecalc.ts (absent from the snapshot) sums the corrected
hourly snowfall and rain arrays of a date. -/
def recalcDailyFromHourly (snowHours rainHours : List ℚ) : DailySums :=
  { snowfallSum := snowHours.sum, rainSum := rainHours.sum }

/- ──────────────────────────────────────────────────────────────────────
   Orchestrator (src/data/openmeteo.ts).
   ────────────────────────────────────────────────────────────────────── -/

/-- One corrected hourly observation (the HourlyMetrics output shape). -/
structure HourlyMetrics where
  time : String
  temperature : ℚ
  apparentTemperature : ℚ
  relativeHumidity : ℚ
  precipitation : ℚ
  rain : ℚ
  snowfall : ℚ
  precipitationProbability : ℚ
  weatherCode : ℚ
  windSpeed : ℚ
  windDirection : ℚ
  windGusts : ℚ
  freezingLevelHeight : ℚ
  snowDepth : Option ℚ

/-- One corrected daily summary (the DailyMetrics output shape). -/
structure DailyMetrics where
  date : String
  weatherCode : ℚ
  temperatureMax : ℚ
  temperatureMin : ℚ
  apparentTemperatureMax : ℚ
  apparentTemperatureMin : ℚ
  uvIndexMax : ℚ
  precipitationSum : ℚ
  rainSum : ℚ
  snowfallSum : ℚ
  precipitationProbabilityMax : ℚ
  windSpeedMax : ℚ
  windGustsMax : ℚ

/-- The elevation band tag. -/
inductive ElevationBand where
  | base
  | mid
  | top
  deriving DecidableEq

/-- One band's full forecast. -/
structure BandForecast where
  band : ElevationBand
  elevation : ℚ
  hourly : List HourlyMetrics
  daily : List DailyMetrics

/-- Embeds mapHourly (openmeteo.ts): run the recalculation on every raw
hour and build the domain rows.  The source reads merged entries with
non-null assertions; merged arrays hold no nulls, and a null would poison
the arithmetic, so entries are read with a 0 default here. -/
def mapHourly (raw : RawHourly) (elevation : ℚ) : List HourlyMetrics :=
  raw.time.enum.map (fun p =>
    let i := p.1
    let res := recalcHourly
      { precipitation := (raw.precipitation.getD i none).getD 0
        rain := (raw.rain.getD i none).getD 0
        snowfall := (raw.snowfall.getD i none).getD 0
        temperature := (raw.temperature_2m.getD i none).getD 0
        freezingLevelHeight := (raw.freezing_level_height.getD i none).getD 0
        relativeHumidity := raw.relative_humidity_2m.getD i none
        windSpeed := raw.wind_speed_10m.getD i none }
      elevation
    { time := p.2
      temperature := (raw.temperature_2m.getD i none).getD 0
      apparentTemperature := (raw.apparent_temperature.getD i none).getD 0
      relativeHumidity := (raw.relative_humidity_2m.getD i none).getD 0
      precipitation := (raw.precipitation.getD i none).getD 0
      rain := res.rain
      snowfall := res.snowfall
      precipitationProbability := (raw.precipitation_probability.getD i none).getD 0
      weatherCode := (raw.weather_code.getD i none).getD 0
      windSpeed := (raw.wind_speed_10m.getD i none).getD 0
      windDirection := (raw.wind_direction_10m.getD i none).getD 0
      windGusts := (raw.wind_gusts_10m.getD i none).getD 0
      freezingLevelHeight := (raw.freezing_level_height.getD i none).getD 0
      snowDepth := match raw.snow_depth with
        | none => none
        | some arr => arr.getD i none })

/-- Embeds mapDaily (openmeteo.ts): per raw day, re-derive the snow and
rain sums from the corrected hourly rows of that date (selected by time
prefix), keeping the other provider fields. -/
def mapDaily (raw : RawDaily) (hourly : List HourlyMetrics) : List DailyMetrics :=
  raw.time.enum.map (fun p =>
    let i := p.1
    let dayHourly := hourly.filter (fun h => h.time.startsWith p.2)
    let sums := recalcDailyFromHourly (dayHourly.map (·.snowfall)) (dayHourly.map (·.rain))
    { date := p.2
      weatherCode := (raw.weather_code.getD i none).getD 0
      temperatureMax := (raw.temperature_2m_max.getD i none).getD 0
      temperatureMin := (raw.temperature_2m_min.getD i none).getD 0
      apparentTemperatureMax := (raw.apparent_temperature_max.getD i none).getD 0
      apparentTemperatureMin := (raw.apparent_temperature_min.getD i none).getD 0
      uvIndexMax := (raw.uv_index_max.getD i none).getD 0
      precipitationSum := (raw.precipitation_sum.getD i none).getD 0
      rainSum := sums.rainSum
      snowfallSum := sums.snowfallSum
      precipitationProbabilityMax :=
        (raw.precipitation_probability_max.getD i none).getD 0
      windSpeedMax := (raw.wind_speed_10m_max.getD i none).getD 0
      windGustsMax := (raw.wind_gusts_10m_max.getD i none).getD 0 })

/-- Hourly variable names without a model suffix (HOURLY_KEYS). -/
def HOURLY_KEYS : List String :=
  ["temperature_2m", "apparent_temperature", "relative_humidity_2m",
   "precipitation", "rain", "snowfall", "precipitation_probability",
   "weather_code", "wind_speed_10m", "wind_direction_10m", "wind_gusts_10m",
   "freezing_level_height", "snow_depth"]

/-- Daily variable names without a model suffix (DAILY_KEYS). -/
def DAILY_KEYS : List String :=
  ["weather_code", "temperature_2m_max", "temperature_2m_min",
   "apparent_temperature_max", "apparent_temperature_min", "uv_index_max",
   "precipitation_sum", "rain_sum", "snowfall_sum",
   "precipitation_probability_max", "wind_speed_10m_max", "wind_gusts_10m_max"]

/-- One section of a multi-model response: the shared time axis plus a
record of suffixed field arrays, modelled as an association list (the
Record<string, (number | null)[]> object). -/
structure OMMultiModelSection where
  time : List String
  fields : List (String × List (Option ℚ))

/-- The combined multi-model response shape. -/
structure OMMultiModelResponse where
  hourly : OMMultiModelSection
  daily : OMMultiModelSection

/-- The per-model field extraction of splitMultiModelResponse for one
section: probe key_model for each enumerated key; if no key at all is
present the model contributes nothing (none) rather than an all-null
series. -/
def splitSection (sec : OMMultiModelSection) (keys : List String)
    (model : String) : Option (List String × List (String × List (Option ℚ))) :=
  let collected := keys.filterMap (fun key =>
    ((sec.fields.lookup (key ++ "_" ++ model)).map (fun arr => (key, arr))))
  if collected.isEmpty then none else some (sec.time, collected)

/-- Rebuilds a RawHourly from the extracted association list, as the
source's structural cast does; keys the model did not deliver become
empty arrays, and snow_depth stays optional. -/
def toRawHourly (p : List String × List (String × List (Option ℚ))) : RawHourly :=
  { time := p.1
    temperature_2m := (p.2.lookup "temperature_2m").getD []
    apparent_temperature := (p.2.lookup "apparent_temperature").getD []
    relative_humidity_2m := (p.2.lookup "relative_humidity_2m").getD []
    precipitation := (p.2.lookup "precipitation").getD []
    rain := (p.2.lookup "rain").getD []
    snowfall := (p.2.lookup "snowfall").getD []
    precipitation_probability := (p.2.lookup "precipitation_probability").getD []
    weather_code := (p.2.lookup "weather_code").getD []
    wind_speed_10m := (p.2.lookup "wind_speed_10m").getD []
    wind_direction_10m := (p.2.lookup "wind_direction_10m").getD []
    wind_gusts_10m := (p.2.lookup "wind_gusts_10m").getD []
    freezing_level_height := (p.2.lookup "freezing_level_height").getD []
    snow_depth := p.2.lookup "snow_depth" }

/-- Rebuilds a RawDaily from the extracted association list. -/
def toRawDaily (p : List String × List (String × List (Option ℚ))) : RawDaily :=
  { time := p.1
    weather_code := (p.2.lookup "weather_code").getD []
    temperature_2m_max := (p.2.lookup "temperature_2m_max").getD []
    temperature_2m_min := (p.2.lookup "temperature_2m_min").getD []
    apparent_temperature_max := (p.2.lookup "apparent_temperature_max").getD []
    apparent_temperature_min := (p.2.lookup "apparent_temperature_min").getD []
    uv_index_max := (p.2.lookup "uv_index_max").getD []
    precipitation_sum := (p.2.lookup "precipitation_sum").getD []
    rain_sum := (p.2.lookup "rain_sum").getD []
    snowfall_sum := (p.2.lookup "snowfall_sum").getD []
    precipitation_probability_max :=
      (p.2.lookup "precipitation_probability_max").getD []
    wind_speed_10m_max := (p.2.lookup "wind_speed_10m_max").getD []
    wind_gusts_10m_max := (p.2.lookup "wind_gusts_10m_max").getD [] }

/-- Embeds splitMultiModelResponse: split the combined response into
per-model raw series; a model contributing zero usable fields in a
section is excluded from that section's list. -/
def splitMultiModelResponse (data : OMMultiModelResponse) (models : List String) :
    List RawHourly × List RawDaily :=
  (models.filterMap (fun model =>
      (splitSection data.hourly HOURLY_KEYS model).map toRawHourly),
   models.filterMap (fun model =>
      (splitSection data.daily DAILY_KEYS model).map toRawDaily))

/-- An all-empty raw hourly series (only used as an unreachable default:
averageHourlyArrays is none only on an empty model list, and the caller
guards that case). -/
def emptyRawHourly : RawHourly :=
  { time := [], temperature_2m := [], apparent_temperature := []
    relative_humidity_2m := [], precipitation := [], rain := []
    snowfall := [], precipitation_probability := [], weather_code := []
    wind_speed_10m := [], wind_direction_10m := [], wind_gusts_10m := []
    freezing_level_height := [], snow_depth := none }

/-- Embeds fetchMultiModelForecast (openmeteo.ts).  The awaited outcome
of the combined fetchJSON call is passed as fetchResult; the awaited
result of the single-model fetchForecast fallback is passed as the
function fetchForecastFn of its arguments (latitude, longitude,
elevation, band, forecast days, past days, timezone).  A failed combined
request, or a split with no usable hourly series, falls back to the
single-model request with the same arguments; otherwise the split series
are merged, recalculated and mapped into the band forecast. -/
noncomputable def fetchMultiModelForecast
    (fetchResult : Except String OMMultiModelResponse)
    (fetchForecastFn : ℚ → ℚ → ℚ → ElevationBand → Nat → Nat → String → BandForecast)
    (lat lon elevation : ℚ) (band : ElevationBand) (models : List String)
    (forecastDays pastDays : Nat) (timezone : String) : BandForecast :=
  match fetchResult with
  | .error _ => fetchForecastFn lat lon elevation band forecastDays pastDays timezone
  | .ok data =>
    let split := splitMultiModelResponse data models
    if split.1.isEmpty then
      fetchForecastFn lat lon elevation band forecastDays pastDays timezone
    else
      let avgHourly := (averageHourlyArrays split.1).getD emptyRawHourly
      let avgDaily := if !split.2.isEmpty then averageDailyArrays split.2 else none
      let hourly := mapHourly avgHourly elevation
      { band := band
        elevation := elevation
        hourly := hourly
        daily := match avgDaily with
          | some d => mapDaily d hourly
          | none => [] }

/- ──────────────────────────────────────────────────────────────────────
   Theorems.
   ────────────────────────────────────────────────────────────────────── -/

/-- The adjusted snow-liquid ratio is strictly positive for every input:
the base ratio lies in [10, 20] and the two adjustment factors are
positive. -/
theorem adjustedSLR_pos (t : ℚ) (h w : Option ℚ) : 0 < adjustedSLR t h w := by
  have h1 : 0 < slrForTemperature t := by
    unfold slrForTemperature
    split
    · norm_num
    · split
      · norm_num
      · have ht : ¬(0 ≤ t) := by assumption
        push_neg at ht
        nlinarith
  have h2 : 0 < humidityFactor h := by
    unfold humidityFactor
    cases h with
    | none => norm_num
    | some hv => dsimp only; split <;> norm_num
  have h3 : 0 < windFactor w := by
    unfold windFactor
    cases w with
    | none => norm_num
    | some wv => dsimp only; split <;> norm_num
  exact mul_pos (mul_pos h1 h2) h3

/-- C1: for every hourly input and station elevation, the recomputed
rain plus the liquid-water equivalent of the recomputed snowfall (its
depth divided by the adjusted snow-liquid ratio, which is never zero)
equals the total input precipitation. -/
theorem recalcHourly_conserves_precipitation (inp : RecalcInput) (stationElevation : ℚ) :
    0 < adjustedSLR inp.temperature inp.relativeHumidity inp.windSpeed ∧
    (recalcHourly inp stationElevation).rain
      + (recalcHourly inp stationElevation).snowfall
        / adjustedSLR inp.temperature inp.relativeHumidity inp.windSpeed
      = inp.precipitation := by
  have hpos := adjustedSLR_pos inp.temperature inp.relativeHumidity inp.windSpeed
  refine ⟨hpos, ?_⟩
  have hne : adjustedSLR inp.temperature inp.relativeHumidity inp.windSpeed ≠ 0 :=
    ne_of_gt hpos
  unfold recalcHourly
  dsimp only
  field_simp

/-- C9: a failed combined multi-model request, or one that splits into
zero usable per-model hourly series, makes fetchMultiModelForecast
return the single-model fallback result with the same coordinates,
elevation, band, day counts and timezone. -/
theorem fetchMultiModel_falls_back
    (fetchForecastFn : ℚ → ℚ → ℚ → ElevationBand → Nat → Nat → String → BandForecast)
    (lat lon elevation : ℚ) (band : ElevationBand) (models : List String)
    (forecastDays pastDays : Nat) (timezone : String) :
    (∀ e, fetchMultiModelForecast (.error e) fetchForecastFn lat lon elevation band
        models forecastDays pastDays timezone
      = fetchForecastFn lat lon elevation band forecastDays pastDays timezone) ∧
    (∀ data, (splitMultiModelResponse data models).1 = [] →
      fetchMultiModelForecast (.ok data) fetchForecastFn lat lon elevation band
          models forecastDays pastDays timezone
        = fetchForecastFn lat lon elevation band forecastDays pastDays timezone) := by
  constructor
  · intro e
    rfl
  · intro data hsplit
    unfold fetchMultiModelForecast
    simp [hsplit]

/-- Witness for C9 at a concrete empty response: the multi-model split of
a response with no fields is empty, and the orchestrator hands back
exactly the single-model result. -/
theorem fetchMultiModel_falls_back_witness :
    (splitMultiModelResponse ⟨⟨[], []⟩, ⟨[], []⟩⟩ ["gfs_seamless", "ecmwf_ifs025"]).1 = [] ∧
    fetchMultiModelForecast (.ok ⟨⟨[], []⟩, ⟨[], []⟩⟩)
        (fun _ _ _ _ _ _ _ => ⟨.base, 1200, [], []⟩) 46 7 1200 .base
        ["gfs_seamless", "ecmwf_ifs025"] 7 0 "auto"
      = ⟨.base, 1200, [], []⟩ := by
  have hsplit : (splitMultiModelResponse ⟨⟨[], []⟩, ⟨[], []⟩⟩
      ["gfs_seamless", "ecmwf_ifs025"]).1 = [] := rfl
  exact ⟨hsplit,
    (fetchMultiModel_falls_back (fun _ _ _ _ _ _ _ => ⟨.base, 1200, [], []⟩)
      46 7 1200 .base ["gfs_seamless", "ecmwf_ifs025"] 7 0 "auto").2
      ⟨⟨[], []⟩, ⟨[], []⟩⟩ hsplit⟩

/-- The message of the error a failed attempt leaves behind: the thrown
transport error's own message, or the labeled HTTP error message. -/
def failureMsg {α : Type} (label : String) : AttemptOutcome α → String
  | .transportError msg => msg
  | .response status statusText _ _ => httpErrorMsg label status statusText

/-- With at least one iteration of fuel left, the loop's result does not
depend on the incoming lastError: every branch either returns a value
built without it or recurses with the current attempt's own error. -/
theorem runAttempts_lastError_irrel {α : Type} (attempts : Nat → AttemptOutcome α)
    (label : String) (maxRetries attempt f : Nat) (le le' : Option String) :
    runAttempts attempts label maxRetries attempt (f + 1) le
      = runAttempts attempts label maxRetries attempt (f + 1) le' := by
  rw [runAttempts, runAttempts]

/-- A retriable failure at an attempt below maxRetries advances the loop
by one attempt, adding one network attempt to the count. -/
theorem runAttempts_skip {α : Type} (attempts : Nat → AttemptOutcome α)
    (label : String) (maxRetries attempt f : Nat) (le : Option String)
    (hretry : isRetriableFailure (attempts attempt) = true)
    (hlast : attempt ≠ maxRetries) :
    runAttempts attempts label maxRetries attempt (f + 2) le
      = ((runAttempts attempts label maxRetries (attempt + 1) (f + 1) le).1,
         (runAttempts attempts label maxRetries (attempt + 1) (f + 1) le).2 + 1) := by
  have hbeq : (attempt == maxRetries) = false := by
    simp [hlast]
  rw [runAttempts]
  cases houtcome : attempts attempt with
  | transportError msg =>
    simp only [hbeq, Bool.false_eq_true, if_false]
    rw [runAttempts_lastError_irrel attempts label maxRetries (attempt + 1) f
      (some msg) le]
  | response status statusText hdr body =>
    rw [houtcome] at hretry
    simp only [isRetriableFailure, Bool.and_eq_true, Bool.not_eq_true'] at hretry
    simp only [hretry.1, Bool.false_eq_true, if_false, hretry.2, hbeq,
      Bool.not_true, Bool.or_self, Bool.false_or]
    rw [runAttempts_lastError_irrel attempts label maxRetries (attempt + 1) f
      (some (httpErrorMsg label status statusText)) le]

/-- A run starting after n leading retriable failures equals the run
starting at attempt n with n more network attempts on the counter. -/
theorem runAttempts_skip_prefix {α : Type} (attempts : Nat → AttemptOutcome α)
    (label : String) (maxRetries : Nat) (n : Nat) :
    ∀ (attempt : Nat) (le : Option String),
      (∀ i, i < n → isRetriableFailure (attempts (attempt + i)) = true) →
      attempt + n ≤ maxRetries →
      runAttempts attempts label maxRetries attempt (maxRetries + 1 - attempt) le
        = ((runAttempts attempts label maxRetries (attempt + n)
              (maxRetries + 1 - (attempt + n)) le).1,
           (runAttempts attempts label maxRetries (attempt + n)
              (maxRetries + 1 - (attempt + n)) le).2 + n) := by
  induction n with
  | zero => intro attempt le _ _; simp
  | succ m ih =>
    intro attempt le hretry hbound
    have hlt : attempt < maxRetries := by omega
    have hfuel : maxRetries + 1 - attempt = (maxRetries - attempt - 1) + 2 := by omega
    have hfuel1 : maxRetries + 1 - (attempt + 1) = (maxRetries - attempt - 1) + 1 := by
      omega
    have h0 : isRetriableFailure (attempts attempt) = true := by
      have := hretry 0 (by omega)
      simpa using this
    rw [hfuel, runAttempts_skip attempts label maxRetries attempt _ le h0 (by omega)]
    rw [← hfuel1]
    have hrec := ih (attempt + 1) le
      (fun i hi => by
        have := hretry (i + 1) (by omega)
        simpa [Nat.add_assoc, Nat.add_comm 1 i] using this)
      (by omega)
    rw [hrec]
    have harith : attempt + 1 + m = attempt + (m + 1) := by omega
    rw [harith]
    simp [Nat.add_assoc]

/-- A non-ok, non-retriable response settles the loop at once with the
labeled HTTP error. -/
theorem runAttempts_permanent {α : Type} (attempts : Nat → AttemptOutcome α)
    (label : String) (maxRetries attempt f : Nat) (le : Option String)
    (status : Nat) (statusText : String) (hdr : Option RetryAfterHeader) (body : α)
    (houtcome : attempts attempt = .response status statusText hdr body)
    (hok : resOk status = false) (hretry : shouldRetryStatus status = false) :
    runAttempts attempts label maxRetries attempt (f + 1) le
      = (.error (httpErrorMsg label status statusText), 1) := by
  rw [runAttempts, houtcome]
  simp [hok, hretry]

/-- An ok response settles the loop at once with the parsed body. -/
theorem runAttempts_success {α : Type} (attempts : Nat → AttemptOutcome α)
    (label : String) (maxRetries attempt f : Nat) (le : Option String)
    (status : Nat) (statusText : String) (hdr : Option RetryAfterHeader) (body : α)
    (houtcome : attempts attempt = .response status statusText hdr body)
    (hok : resOk status = true) :
    runAttempts attempts label maxRetries attempt (f + 1) le = (.ok body, 1) := by
  rw [runAttempts, houtcome]
  simp [hok]

/-- At the final attempt, any failure settles the loop with that
attempt's own error message. -/
theorem runAttempts_final_failure {α : Type} (attempts : Nat → AttemptOutcome α)
    (label : String) (maxRetries f : Nat) (le : Option String)
    (hretry : isRetriableFailure (attempts maxRetries) = true) :
    runAttempts attempts label maxRetries maxRetries (f + 1) le
      = (.error (failureMsg label (attempts maxRetries)), 1) := by
  rw [runAttempts]
  cases houtcome : attempts maxRetries with
  | transportError msg => simp [failureMsg]
  | response status statusText hdr body =>
    rw [houtcome] at hretry
    simp only [isRetriableFailure, Bool.and_eq_true, Bool.not_eq_true'] at hretry
    simp [hretry.1, failureMsg]

/-- C2: transport failures and 429 / 5xx responses are retried, every
other non-ok status settles the call immediately, on that attempt, with
an error naming the label, the numeric status and the reason text.  The
second component counts network attempts: a permanent client error at
attempt n after n retriable failures gives n + 1 attempts (n = 0: a
single 400 is never retried); all-retriable outcomes use all
maxRetries + 1 attempts and surface the last error; an ok response after
n retriable failures is returned with n + 1 attempts. -/
theorem fetchJSONWithRetry_retry_policy {α : Type} (attempts : Nat → AttemptOutcome α)
    (label : String) (maxRetries : Nat) :
    (∀ n status statusText hdr body, n ≤ maxRetries →
      (∀ i, i < n → isRetriableFailure (attempts i) = true) →
      attempts n = .response status statusText hdr body →
      resOk status = false → shouldRetryStatus status = false →
      fetchJSONWithRetry attempts label maxRetries
        = (.error (httpErrorMsg label status statusText), n + 1)) ∧
    ((∀ i, i ≤ maxRetries → isRetriableFailure (attempts i) = true) →
      fetchJSONWithRetry attempts label maxRetries
        = (.error (failureMsg label (attempts maxRetries)), maxRetries + 1)) ∧
    (∀ n status statusText hdr body, n ≤ maxRetries →
      (∀ i, i < n → isRetriableFailure (attempts i) = true) →
      attempts n = .response status statusText hdr body →
      resOk status = true →
      fetchJSONWithRetry attempts label maxRetries = (.ok body, n + 1)) := by
  refine ⟨?_, ?_, ?_⟩
  · intro n status statusText hdr body hn hpre houtcome hok hretry
    unfold fetchJSONWithRetry
    have h0 : maxRetries + 1 = maxRetries + 1 - 0 := by omega
    rw [h0, runAttempts_skip_prefix attempts label maxRetries n 0 none
      (by simpa using hpre) (by omega)]
    have hfuel : maxRetries + 1 - (0 + n) = (maxRetries - n) + 1 := by omega
    rw [hfuel]
    rw [runAttempts_permanent attempts label maxRetries (0 + n) (maxRetries - n) none
      status statusText hdr body (by simpa using houtcome) hok hretry]
    simp [Nat.add_comm]
  · intro hall
    unfold fetchJSONWithRetry
    have h0 : maxRetries + 1 = maxRetries + 1 - 0 := by omega
    rw [h0, runAttempts_skip_prefix attempts label maxRetries maxRetries 0 none
      (fun i hi => by simpa using hall i (by omega)) (by omega)]
    have hfuel : maxRetries + 1 - (0 + maxRetries) = 0 + 1 := by omega
    rw [hfuel]
    have hmr : (0 : Nat) + maxRetries = maxRetries := by omega
    rw [hmr]
    rw [runAttempts_final_failure attempts label maxRetries 0 none
      (hall maxRetries (by omega))]
    simp [Nat.add_comm]
  · intro n status statusText hdr body hn hpre houtcome hok
    unfold fetchJSONWithRetry
    have h0 : maxRetries + 1 = maxRetries + 1 - 0 := by omega
    rw [h0, runAttempts_skip_prefix attempts label maxRetries n 0 none
      (by simpa using hpre) (by omega)]
    have hfuel : maxRetries + 1 - (0 + n) = (maxRetries - n) + 1 := by omega
    rw [hfuel]
    rw [runAttempts_success attempts label maxRetries (0 + n) (maxRetries - n) none
      status statusText hdr body (by simpa using houtcome) hok]
    simp [Nat.add_comm]

/-- Witness for C2: a single 400 response with maxRetries = 4 fails on
the very first attempt (one network attempt, no retry) with the message
naming label, status and reason text. -/
theorem fetchJSONWithRetry_retry_policy_witness :
    fetchJSONWithRetry (fun _ => .response 400 "Bad Request" none (0 : Nat))
        "Test API" 4
      = (.error "Test API 400: Bad Request", 1) := by
  have h := (fetchJSONWithRetry_retry_policy
      (fun _ => .response 400 "Bad Request" none (0 : Nat)) "Test API" 4).1
    0 400 "Bad Request" none 0 (by decide) (fun i hi => by omega) rfl (by decide)
    (by decide)
  simpa [httpErrorMsg] using h

/-- C8: the retry delay is the exponential backoff
min(base · 2^attempt, max), overridden upward but never downward by the
parsed Retry-After hint: the delay never drops below the exponential
term; with no (or an unparsable) hint it is exactly the exponential term;
with a parsed hint p it is max(exponential, p), and p is never negative;
a finite non-negative numeric hint parses as seconds (rounded to ms); a
numeric-unparsable or negative value falls back to the absolute-timestamp
form when that parses, and is treated as absent when it does not. -/
theorem retryDelayMs_spec (now : ℚ) (attempt : Nat) (baseDelayMs maxDelayMs : ℚ)
    (hdr : Option RetryAfterHeader) :
    (min (baseDelayMs * 2 ^ attempt) maxDelayMs
        ≤ retryDelayMs now attempt baseDelayMs maxDelayMs hdr) ∧
    (parseRetryAfterMs now hdr = none → 0 ≤ baseDelayMs → 0 ≤ maxDelayMs →
      retryDelayMs now attempt baseDelayMs maxDelayMs hdr
        = min (baseDelayMs * 2 ^ attempt) maxDelayMs) ∧
    (∀ p, parseRetryAfterMs now hdr = some p →
      retryDelayMs now attempt baseDelayMs maxDelayMs hdr
        = max (min (baseDelayMs * 2 ^ attempt) maxDelayMs) p) ∧
    (∀ p, parseRetryAfterMs now hdr = some p → 0 ≤ p) ∧
    (∀ h seconds, hdr = some h → h.numVal = some seconds → 0 ≤ seconds →
      parseRetryAfterMs now hdr = some (jsRound (seconds * 1000))) ∧
    (∀ h ts, hdr = some h →
      (h.numVal = none ∨ ∃ s, h.numVal = some s ∧ s < 0) →
      h.dateVal = some ts → parseRetryAfterMs now hdr = some (max 0 (ts - now))) ∧
    (parseRetryAfterMs now none = none) ∧
    (∀ h, hdr = some h →
      (h.numVal = none ∨ ∃ s, h.numVal = some s ∧ s < 0) →
      h.dateVal = none → parseRetryAfterMs now hdr = none) := by
  refine ⟨?_, ?_, ?_, ?_, ?_, ?_, rfl, ?_⟩
  · exact le_max_left _ _
  · intro hnone hbase hmax
    unfold retryDelayMs
    rw [hnone]
    simp only [Option.getD_none]
    exact max_eq_left (le_min (by positivity) hmax)
  · intro p hp
    unfold retryDelayMs
    rw [hp]
    rfl
  · intro p hp
    cases hdr with
    | none => simp [parseRetryAfterMs] at hp
    | some h =>
      simp only [parseRetryAfterMs] at hp
      rcases hnv : h.numVal with _ | seconds
      · rw [hnv] at hp
        unfold parseRetryAfterDate at hp
        rcases hdv : h.dateVal with _ | ts
        · rw [hdv] at hp; simp at hp
        · rw [hdv] at hp
          simp only [Option.some.injEq] at hp
          rw [← hp]
          exact le_max_left 0 _
      · rw [hnv] at hp
        dsimp only at hp
        by_cases hs : 0 ≤ seconds
        · rw [if_pos hs] at hp
          simp only [Option.some.injEq] at hp
          rw [← hp]
          unfold jsRound
          have : (0 : ℤ) ≤ ⌊seconds * 1000 + 1 / 2⌋ := by
            apply Int.floor_nonneg.mpr
            nlinarith
          exact_mod_cast this
        · rw [if_neg hs] at hp
          unfold parseRetryAfterDate at hp
          rcases hdv : h.dateVal with _ | ts
          · rw [hdv] at hp; simp at hp
          · rw [hdv] at hp
            simp only [Option.some.injEq] at hp
            rw [← hp]
            exact le_max_left 0 _
  · intro h seconds hh hnv hs
    rw [hh]
    simp only [parseRetryAfterMs]
    rw [hnv]
    dsimp only
    rw [if_pos hs]
  · intro h ts hh hnum hdv
    rw [hh]
    simp only [parseRetryAfterMs]
    rcases hnum with hnv | ⟨s, hnv, hneg⟩
    · rw [hnv]
      unfold parseRetryAfterDate
      rw [hdv]
    · rw [hnv]
      dsimp only
      rw [if_neg (not_le.mpr hneg)]
      unfold parseRetryAfterDate
      rw [hdv]
  · intro h hh hnum hdv
    rw [hh]
    simp only [parseRetryAfterMs]
    rcases hnum with hnv | ⟨s, hnv, hneg⟩
    · rw [hnv]
      unfold parseRetryAfterDate
      rw [hdv]
    · rw [hnv]
      dsimp only
      rw [if_neg (not_le.mpr hneg)]
      unfold parseRetryAfterDate
      rw [hdv]

/-- Witness for C8: a Retry-After of 5 seconds at attempt 2 with base
400 ms and cap 30000 ms parses to 5000 ms and overrides the exponential
delay of 1600 ms upward to 5000 ms. -/
theorem retryDelayMs_spec_witness :
    parseRetryAfterMs 0 (some ⟨some 5, none⟩) = some 5000 ∧
    retryDelayMs 0 2 400 30000 (some ⟨some 5, none⟩) = 5000 := by
  have hparse := (retryDelayMs_spec 0 2 400 30000 (some ⟨some 5, none⟩)).2.2.2.2.1
    ⟨some 5, none⟩ 5 rfl rfl (by norm_num)
  have hround : jsRound ((5 : ℚ) * 1000) = 5000 := by
    unfold jsRound
    norm_num
  rw [hround] at hparse
  refine ⟨hparse, ?_⟩
  have hdelay := (retryDelayMs_spec 0 2 400 30000 (some ⟨some 5, none⟩)).2.2.1
    5000 hparse
  rw [hdelay]
  norm_num

/-- The effective method component of the cache key. -/
def keyMethod (i : RequestInit) : String :=
  (i.method.map String.toUpper).getD "GET"

/-- Composite cache keys are strictly longer than the bare URL key, so a
non-trivial request identity never collides with the plain-GET identity
of the same URL. -/
theorem cacheKey_composite_ne_url (url : String) (i : RequestInit)
    (h : keyMethod i ≠ "GET" ∨ jsFalsyStr i.body = false) :
    cacheKey url (some i) = keyMethod i ++ ":" ++ url ++ ":" ++ i.body.getD "" ∧
    cacheKey url (some i) ≠ cacheKey url none := by
  have hkey : cacheKey url (some i)
      = keyMethod i ++ ":" ++ url ++ ":" ++ i.body.getD "" := by
    rcases h with hm | hb
    · unfold cacheKey
      dsimp only
      rw [if_neg]
      · rfl
      · simp only [Bool.and_eq_true, decide_eq_true_eq]
        intro hand
        exact hm hand.1
    · unfold cacheKey
      dsimp only
      rw [if_neg]
      · rfl
      · simp [hb]
  refine ⟨hkey, ?_⟩
  rw [hkey]
  intro hcontra
  have hlen := congrArg String.length hcontra
  simp only [String.length_append, cacheKey] at hlen
  have h1 : (":" : String).length = 1 := rfl
  rw [h1] at hlen
  omega

/-- C4: with caching enabled, a live entry under the request identity is
served from the cache with no network attempt; a miss followed by a
successful fetch stores the payload under the identity key with absolute
expiry nowDone + ttl and reports the network as used; entries of other
identities are never touched; the identity is the URL alone for plain
GETs and METHOD:url:body otherwise, so a non-trivial method/body forms a
key that can never equal the bare-URL key, and two identities with the
same method but different bodies never share an entry. -/
theorem fetchCall_cache_spec {α : Type} (cache : String → Option (CacheEntry α))
    (url : String) (init : Option RequestInit) (cacheTtlMs now nowDone : ℚ)
    (netResult : Except String α) :
    (∀ e, 0 < cacheTtlMs → cache (cacheKey url init) = some e → now < e.expiresAt →
      fetchCall cache url init cacheTtlMs now nowDone netResult
        = (.ok e.data, cache, false)) ∧
    (∀ v, 0 < cacheTtlMs →
      (cache (cacheKey url init) = none ∨
        ∃ e, cache (cacheKey url init) = some e ∧ e.expiresAt ≤ now) →
      netResult = .ok v →
      fetchCall cache url init cacheTtlMs now nowDone netResult
        = (.ok v, mapSet cache (cacheKey url init) ⟨v, nowDone + cacheTtlMs⟩, true) ∧
      (fetchCall cache url init cacheTtlMs now nowDone netResult).2.1
          (cacheKey url init) = some ⟨v, nowDone + cacheTtlMs⟩) ∧
    (∀ k, k ≠ cacheKey url init →
      (fetchCall cache url init cacheTtlMs now nowDone netResult).2.1 k = cache k) ∧
    (cacheKey url none = url) ∧
    (∀ i1 i2 : RequestInit,
      (keyMethod i1 ≠ "GET" ∨ jsFalsyStr i1.body = false) →
      (keyMethod i2 ≠ "GET" ∨ jsFalsyStr i2.body = false) →
      keyMethod i1 = keyMethod i2 → i1.body.getD "" ≠ i2.body.getD "" →
      cacheKey url (some i1) ≠ cacheKey url (some i2)) := by
  refine ⟨?_, ?_, ?_, rfl, ?_⟩
  · intro e httl hentry hlive
    unfold fetchCall
    rw [if_pos httl]
    dsimp only
    rw [hentry]
    dsimp only
    rw [if_pos hlive]
  · intro v httl hmiss hnet
    have hbranch : fetchCall cache url init cacheTtlMs now nowDone netResult
        = fetchCallMiss cache (cacheKey url init) cacheTtlMs nowDone netResult := by
      unfold fetchCall
      rw [if_pos httl]
      dsimp only
      rcases hmiss with hnone | ⟨e, hentry, hexp⟩
      · rw [hnone]
      · rw [hentry]
        dsimp only
        rw [if_neg (not_lt.mpr hexp)]
    rw [hbranch, hnet]
    unfold fetchCallMiss
    exact ⟨rfl, by simp [mapSet]⟩
  · intro k hk
    unfold fetchCall
    by_cases httl : 0 < cacheTtlMs
    · rw [if_pos httl]
      dsimp only
      rcases hentry : cache (cacheKey url init) with _ | e
      · unfold fetchCallMiss
        cases netResult with
        | ok v => simp [mapSet, hk]
        | error e => rfl
      · dsimp only
        by_cases hlt : now < e.expiresAt
        · rw [if_pos hlt]
        · rw [if_neg hlt]
          unfold fetchCallMiss
          cases netResult with
          | ok v => simp [mapSet, hk]
          | error e => rfl
    · rw [if_neg httl]
  · intro i1 i2 h1 h2 hm hb
    have hk1 := (cacheKey_composite_ne_url url i1 h1).1
    have hk2 := (cacheKey_composite_ne_url url i2 h2).1
    rw [hk1, hk2, hm]
    intro hcontra
    apply hb
    have hdata := congrArg String.data hcontra
    simp only [String.data_append] at hdata
    exact String.ext (List.append_cancel_left hdata)

/-- Witness for C4 at concrete inputs: a first call at time 0 with TTL
100 stores the fetched value 42 under the bare-URL key with expiry 100,
a second call at time 50 is served from the cache with no network
attempt, and a GET-with-body identity on the same URL differs from both
the bare key and a sibling identity with another body. -/
theorem fetchCall_cache_spec_witness :
    (fetchCall (fun _ => (none : Option (CacheEntry Nat))) "https://e.com/a" none
        100 0 0 (.ok 42)).2.1 "https://e.com/a" = some ⟨42, 100⟩ ∧
    fetchCall (mapSet (fun _ => (none : Option (CacheEntry Nat))) "https://e.com/a"
        ⟨42, 100⟩) "https://e.com/a" none 100 50 50 (.error "unused")
      = (.ok 42, mapSet (fun _ => none) "https://e.com/a" ⟨42, 100⟩, false) ∧
    cacheKey "https://e.com/a" (some ⟨none, some "b1"⟩) ≠ cacheKey "https://e.com/a" none ∧
    cacheKey "https://e.com/a" (some ⟨none, some "b1"⟩)
      ≠ cacheKey "https://e.com/a" (some ⟨none, some "b2"⟩) := by
  refine ⟨?_, ?_, ?_, ?_⟩
  · have h := ((fetchCall_cache_spec (fun _ => (none : Option (CacheEntry Nat)))
        "https://e.com/a" none 100 0 0 (.ok 42)).2.1 42 (by norm_num)
        (Or.inl rfl) rfl).2
    simpa using h
  · have h := (fetchCall_cache_spec (mapSet (fun _ => (none : Option (CacheEntry Nat)))
        "https://e.com/a" ⟨42, 100⟩) "https://e.com/a" none 100 50 50
        (.error "unused")).1 ⟨42, 100⟩ (by norm_num) (by simp [mapSet, cacheKey])
        (by norm_num)
    simpa using h
  · exact (cacheKey_composite_ne_url "https://e.com/a" ⟨none, some "b1"⟩
      (Or.inr (by decide))).2
  · exact (fetchCall_cache_spec (fun _ => (none : Option (CacheEntry Nat)))
      "https://e.com/a" none 100 0 0 (.ok 42)).2.2.2.2 ⟨none, some "b1"⟩
      ⟨none, some "b2"⟩ (Or.inr (by decide)) (Or.inr (by decide)) rfl (by decide)

/-- Arrivals finding their key in flight join the registered promise and
change nothing. -/
theorem arriveAll_joined (key : String) (p : Nat) :
    ∀ (st : DedupState) (n : Nat), st.inflight key = some p →
      arriveAll st (List.replicate n key) = (st, List.replicate n p) := by
  intro st n
  induction n generalizing st with
  | zero => intro _; rfl
  | succ m ih =>
    intro hin
    simp only [List.replicate_succ]
    unfold arriveAll arrive
    rw [hin]
    dsimp only
    rw [ih st hin]

/-- C5: N ≥ 1 concurrent callers of fetchJSONWithRetry with the same
cache key and caching enabled, arriving while no request for that key is
in flight and no live cache entry exists, start exactly one underlying
network request sequence; every caller awaits the same promise, and so
receives the same resolved value or the same failure. -/
theorem dedup_single_network {α : Type} (st0 : DedupState) (key : String) (n : Nat)
    (resolution : Nat → Except String α) (hn : 1 ≤ n)
    (hfree : st0.inflight key = none) :
    (arriveAll st0 (List.replicate n key)).1.networkStarts = st0.networkStarts + 1 ∧
    (arriveAll st0 (List.replicate n key)).2 = List.replicate n st0.nextId ∧
    ∀ q ∈ (arriveAll st0 (List.replicate n key)).2,
      resolution q = resolution st0.nextId := by
  obtain ⟨m, rfl⟩ : ∃ m, n = m + 1 := ⟨n - 1, by omega⟩
  have hfirst : arrive st0 key
      = ({ inflight := mapSet st0.inflight key st0.nextId
           nextId := st0.nextId + 1
           networkStarts := st0.networkStarts + 1 }, st0.nextId) := by
    unfold arrive
    rw [hfree]
  have hreg : (arrive st0 key).1.inflight key = some st0.nextId := by
    rw [hfirst]
    simp [mapSet]
  have hrest := arriveAll_joined key st0.nextId (arrive st0 key).1 m hreg
  have hall : arriveAll st0 (List.replicate (m + 1) key)
      = ((arrive st0 key).1, st0.nextId :: List.replicate m st0.nextId) := by
    simp only [List.replicate_succ]
    unfold arriveAll
    dsimp only
    rw [hrest]
    simp [hfirst]
  refine ⟨?_, ?_, ?_⟩
  · rw [hall, hfirst]
  · rw [hall, hfirst]
    simp [List.replicate_succ]
  · intro q hq
    rw [hall] at hq
    simp only [List.mem_cons, List.mem_replicate] at hq
    rcases hq with rfl | ⟨_, rfl⟩ <;> rfl

/-- Witness for C5: three concurrent callers on one key from a fresh
state start exactly one network request and all await promise 0. -/
theorem dedup_single_network_witness :
    ((arriveAll ⟨fun _ => none, 0, 0⟩ (List.replicate 3 "k")).1.networkStarts = 0 + 1) ∧
    (arriveAll ⟨fun _ => none, 0, 0⟩ (List.replicate 3 "k")).2 = [0, 0, 0] := by
  have h := dedup_single_network (α := Unit) ⟨fun _ => none, 0, 0⟩ "k" 3
    (fun _ => .ok ()) (by decide) rfl
  refine ⟨h.1, ?_⟩
  rw [h.2.1]
  rfl

/-- Entries whose date never occurs in the remaining model days are left
untouched by the blend fold. -/
theorem blendWithNWS_foldl_untouched (nws : String → Option ℚ) (w : ℚ) :
    ∀ (days : List ModelSnowDay) (acc : String → Option ℚ) (d : String),
      (∀ day ∈ days, day.date ≠ d) →
      (days.foldl
        (fun result day =>
          match nws day.date with
          | some nwsValue =>
            mapSet result day.date (r2 ((1 - w) * day.snowfallSum + w * nwsValue))
          | none => mapSet result day.date day.snowfallSum)
        acc) d = acc d := by
  intro days
  induction days with
  | nil => intro acc d _; rfl
  | cons x rest ih =>
    intro acc d hmem
    simp only [List.foldl_cons]
    rw [ih _ d (fun day hday => hmem day (List.mem_cons_of_mem x hday))]
    have hx : x.date ≠ d := hmem x (List.mem_cons_self x rest)
    have hd : d ≠ x.date := Ne.symm hx
    cases nws x.date <;> simp [mapSet, hd]

/-- The blend fold's lookup at a present date (dates assumed distinct)
gives the blended value when NWS has that date and the model value
otherwise. -/
theorem blendWithNWS_foldl_lookup (nws : String → Option ℚ) (w : ℚ) :
    ∀ (days : List ModelSnowDay) (acc : String → Option ℚ) (day : ModelSnowDay),
      day ∈ days → (days.map (·.date)).Nodup →
      (days.foldl
        (fun result day =>
          match nws day.date with
          | some nwsValue =>
            mapSet result day.date (r2 ((1 - w) * day.snowfallSum + w * nwsValue))
          | none => mapSet result day.date day.snowfallSum)
        acc) day.date
        = some (match nws day.date with
            | some nwsValue => r2 ((1 - w) * day.snowfallSum + w * nwsValue)
            | none => day.snowfallSum) := by
  intro days
  induction days with
  | nil => intro acc day hmem; exact absurd hmem (List.not_mem_nil day)
  | cons x rest ih =>
    intro acc day hmem hnodup
    simp only [List.map_cons, List.nodup_cons] at hnodup
    rcases List.mem_cons.mp hmem with rfl | hmem'
    · simp only [List.foldl_cons]
      rw [blendWithNWS_foldl_untouched nws w rest _ day.date
        (fun d hd => fun hcontra => hnodup.1 (hcontra ▸ List.mem_map_of_mem _ hd))]
      cases nws day.date <;> simp [mapSet]
    · simp only [List.foldl_cons]
      exact ih _ day hmem' hnodup.2

/-- Counterexample to C10 as stated: the code rounds the blended value to
two decimals.  Model value 0 with external value 1/100 at weight 3/10
yields 0, not the exact blend 3/1000. -/
theorem blendWithNWS_rounds_counterexample :
    blendWithNWS [⟨"d", 0⟩] (fun x => if x = "d" then some (1/100) else none)
        (3/10) "d" = some 0 ∧
    ((1 - 3/10) * 0 + (3/10) * (1/100) : ℚ) = 3/1000 ∧
    (0 : ℚ) ≠ 3/1000 := by
  refine ⟨?_, by norm_num, by norm_num⟩
  show (mapSet (fun _ => none) "d" (r2 ((1 - 3/10) * 0 + (3/10) * (1/100)))) "d"
      = some 0
  rw [show r2 ((1 - 3/10) * 0 + (3/10) * (1/100)) = 0 by
    unfold r2
    norm_num]
  simp [mapSet]

/-- C10 (amended): for distinct model dates, each day whose date has a
matching external value blends to the two-decimal rounding of
(1 - externalWeight) · modelValue + externalWeight · externalValue; each
day absent from the external source passes through unchanged, so the
external source's absence never fails the operation; model value 10 with
external value 20 at weight 0.3 still yields exactly 13. -/
theorem blendWithNWS_spec (modelSnowDays : List ModelSnowDay)
    (nwsSnowMap : String → Option ℚ) (nwsWeight : ℚ) :
    (∀ day ∈ modelSnowDays, (modelSnowDays.map (·.date)).Nodup →
      nwsSnowMap day.date = none →
      blendWithNWS modelSnowDays nwsSnowMap nwsWeight day.date
        = some day.snowfallSum) ∧
    (∀ day ∈ modelSnowDays, (modelSnowDays.map (·.date)).Nodup →
      ∀ nwsValue, nwsSnowMap day.date = some nwsValue →
      blendWithNWS modelSnowDays nwsSnowMap nwsWeight day.date
        = some (r2 ((1 - nwsWeight) * day.snowfallSum + nwsWeight * nwsValue))) ∧
    blendWithNWS [⟨"d", 10⟩] (fun x => if x = "d" then some 20 else none)
        (3/10) "d" = some 13 := by
  refine ⟨?_, ?_, ?_⟩
  · intro day hmem hnodup hnone
    have h := blendWithNWS_foldl_lookup nwsSnowMap nwsWeight modelSnowDays
      (fun _ => none) day hmem hnodup
    unfold blendWithNWS
    rw [h, hnone]
  · intro day hmem hnodup nwsValue hsome
    have h := blendWithNWS_foldl_lookup nwsSnowMap nwsWeight modelSnowDays
      (fun _ => none) day hmem hnodup
    unfold blendWithNWS
    rw [h, hsome]
  · show (mapSet (fun _ => none) "d" (r2 ((1 - 3/10) * 10 + (3/10) * 20))) "d"
      = some 13
    rw [show r2 ((1 - 3/10) * 10 + (3/10) * 20) = 13 by
      unfold r2
      norm_num]
    simp [mapSet]

/-- Witness for C10 (amended) at concrete inputs: one matching date
blends 10 and 20 at weight 0.3 to 13, and a day with no external date
passes through unchanged. -/
theorem blendWithNWS_spec_witness :
    blendWithNWS [⟨"d", 10⟩] (fun x => if x = "d" then some 20 else none)
        (3/10) "d" = some 13 ∧
    blendWithNWS [⟨"e", 7⟩] (fun _ => none) (3/10) "e" = some 7 := by
  refine ⟨(blendWithNWS_spec [] (fun _ => none) 0).2.2, ?_⟩
  have h := (blendWithNWS_spec [⟨"e", 7⟩] (fun _ => none) (3/10)).1
    ⟨"e", 7⟩ (by simp) (by simp) rfl
  simpa using h

/-- The first value whose running count reaches k while scanning left to
right (counting on top of the incoming counts map). -/
def firstToReach (k : Nat) : List ℚ → (ℚ → Nat) → Option ℚ
  | [], _ => none
  | v :: rest, counts =>
    let c := counts v + 1
    if c = k then some v else firstToReach k rest (countsUpd counts v c)

/-- The highest multiplicity occurring in a list of values. -/
def maxCount (values : List ℚ) : Nat :=
  (values.map (fun v => values.count v)).foldr max 0

/-- Stepping the counts map past the head preserves every value's final
count. -/
theorem countsUpd_shift (counts : ℚ → Nat) (v x : ℚ) (rest : List ℚ) :
    countsUpd counts v (counts v + 1) x + rest.count x
      = counts x + (v :: rest).count x := by
  unfold countsUpd
  by_cases hx : x = v
  · subst hx
    simp [List.count_cons_self]
    omega
  · simp [hx, List.count_cons_of_ne hx]

/-- Every member of a list of naturals is bounded by its max fold. -/
theorem le_foldr_max (ns : List Nat) (a : Nat) (h : a ∈ ns) :
    a ≤ ns.foldr max 0 := by
  induction ns with
  | nil => exact absurd h (List.not_mem_nil a)
  | cons n ns ih =>
    rcases List.mem_cons.mp h with rfl | h'
    · exact Nat.le_max_left _ _
    · exact le_trans (ih h') (Nat.le_max_right _ _)

/-- The max fold of a list of naturals is zero or attained in the list. -/
theorem foldr_max_attained (ns : List Nat) :
    ns.foldr max 0 = 0 ∨ ns.foldr max 0 ∈ ns := by
  induction ns with
  | nil => exact Or.inl rfl
  | cons n ns ih =>
    simp only [List.foldr_cons]
    rcases Nat.le_total n (ns.foldr max 0) with hle | hle
    · rw [Nat.max_eq_right hle]
      rcases ih with h0 | hmem
      · rw [h0]
        rw [h0] at hle
        interval_cases n
        · exact Or.inr (List.mem_cons_self _ _)
      · exact Or.inr (List.mem_cons_of_mem _ hmem)
    · rw [Nat.max_eq_left hle]
      exact Or.inr (List.mem_cons_self _ _)

/-- Every value's multiplicity is bounded by maxCount. -/
theorem count_le_maxCount (values : List ℚ) (v : ℚ) :
    values.count v ≤ maxCount values := by
  by_cases hmem : v ∈ values
  · exact le_foldr_max _ _ (List.mem_map_of_mem _ hmem)
  · rw [List.count_eq_zero.mpr hmem]
    exact Nat.zero_le _

/-- maxCount is attained by some value of a non-empty list. -/
theorem maxCount_attained (values : List ℚ) (hne : values ≠ []) :
    0 < maxCount values ∧ ∃ u, values.count u = maxCount values := by
  obtain ⟨v0, rest, rfl⟩ := List.exists_cons_of_ne_nil hne
  have hpos : 0 < maxCount (v0 :: rest) := by
    have h1 : (v0 :: rest).count v0 ≤ maxCount (v0 :: rest) :=
      count_le_maxCount _ _
    have h2 : 0 < (v0 :: rest).count v0 :=
      List.count_pos_iff.mpr (List.mem_cons_self _ _)
    omega
  refine ⟨hpos, ?_⟩
  rcases foldr_max_attained ((v0 :: rest).map (fun v => (v0 :: rest).count v)) with
    h0 | hmem
  · exact absurd h0 (by unfold maxCount at hpos; omega)
  · obtain ⟨u, _, hu⟩ := List.mem_map.mp hmem
    exact ⟨u, hu⟩

/-- When no value can ever exceed the running best count, the mode loop
keeps its current best. -/
theorem modeLoop_stable (l : List ℚ) :
    ∀ (counts : ℚ → Nat) (best : ℚ) (bestCount : Nat),
      (∀ v, counts v + l.count v ≤ bestCount) →
      modeLoop l counts best bestCount = best := by
  induction l with
  | nil => intro counts best bestCount _; rfl
  | cons v rest ih =>
    intro counts best bestCount hbound
    unfold modeLoop
    have hc : ¬(bestCount < counts v + 1) := by
      have := hbound v
      have hcount : 0 < (v :: rest).count v := by
        simp [List.count_cons_self]
      omega
    rw [if_neg hc]
    apply ih
    intro x
    rw [countsUpd_shift]
    exact hbound x

/-- The mode loop lands on exactly the first value whose running count
reaches the eventual maximum. -/
theorem modeLoop_firstToReach (l : List ℚ) :
    ∀ (counts : ℚ → Nat) (best : ℚ) (bestCount M : Nat),
      (∀ v, counts v ≤ bestCount) → bestCount < M →
      (∀ v, counts v + l.count v ≤ M) →
      (∃ u, counts u + l.count u = M) →
      ∃ w, firstToReach M l counts = some w ∧ modeLoop l counts best bestCount = w := by
  induction l with
  | nil =>
    intro counts best bestCount M hle hlt hbound hex
    obtain ⟨u, hu⟩ := hex
    have := hle u
    simp only [List.count_nil] at hu
    omega
  | cons v rest ih =>
    intro counts best bestCount M hle hlt hbound hex
    by_cases hc : bestCount < counts v + 1
    · have hceq : counts v + 1 = bestCount + 1 := by
        have := hle v
        omega
      by_cases hM : counts v + 1 = M
      · refine ⟨v, ?_, ?_⟩
        · unfold firstToReach
          rw [if_pos hM]
        · unfold modeLoop
          rw [if_pos hc]
          apply modeLoop_stable
          intro x
          rw [countsUpd_shift, hM]
          exact hbound x
      · have hlt' : counts v + 1 < M := by omega
        obtain ⟨w, hft, hml⟩ := ih (countsUpd counts v (counts v + 1)) v
          (counts v + 1) M
          (fun x => by
            unfold countsUpd
            by_cases hx : x = v
            · simp [hx]
            · simp [hx]
              have := hle x
              omega)
          hlt'
          (fun x => by rw [countsUpd_shift]; exact hbound x)
          (by
            obtain ⟨u, hu⟩ := hex
            exact ⟨u, by rw [countsUpd_shift]; exact hu⟩)
        refine ⟨w, ?_, ?_⟩
        · unfold firstToReach
          rw [if_neg hM]
          exact hft
        · unfold modeLoop
          rw [if_pos hc]
          exact hml
    · have hM : counts v + 1 ≠ M := by
        have := hle v
        omega
      obtain ⟨w, hft, hml⟩ := ih (countsUpd counts v (counts v + 1)) best
        bestCount M
        (fun x => by
          unfold countsUpd
          by_cases hx : x = v
          · simp [hx]
            omega
          · simp [hx]
            exact hle x)
        hlt
        (fun x => by rw [countsUpd_shift]; exact hbound x)
        (by
          obtain ⟨u, hu⟩ := hex
          exact ⟨u, by rw [countsUpd_shift]; exact hu⟩)
      refine ⟨w, ?_, ?_⟩
      · unfold firstToReach
        rw [if_neg hM]
        exact hft
      · unfold modeLoop
        rw [if_neg hc]
        exact hml

/-- Whatever firstToReach returns occurs in the list with enough copies
to reach the target count. -/
theorem firstToReach_mem (k : Nat) (l : List ℚ) :
    ∀ (counts : ℚ → Nat) (w : ℚ), firstToReach k l counts = some w →
      w ∈ l ∧ k ≤ counts w + l.count w := by
  induction l with
  | nil => intro counts w h; simp [firstToReach] at h
  | cons v rest ih =>
    intro counts w h
    unfold firstToReach at h
    by_cases hc : counts v + 1 = k
    · rw [if_pos hc] at h
      obtain rfl : v = w := by simpa using h
      refine ⟨List.mem_cons_self _ _, ?_⟩
      have : 0 < (v :: rest).count v := by simp [List.count_cons_self]
      omega
    · rw [if_neg hc] at h
      obtain ⟨hmem, hcount⟩ := ih _ w h
      rw [countsUpd_shift] at hcount
      exact ⟨List.mem_cons_of_mem _ hmem, hcount⟩

/-- Counterexample to C7 as stated: in [1, 2, 2, 1] the values 1 and 2
tie for the highest frequency (both occur twice, the maximum), the value
1 is encountered first, yet mode returns 2: the loop replaces the best
only on a strictly larger count, so the winner is the first value to
reach the winning count, not the first-encountered tied value. -/
theorem mode_tie_counterexample :
    mode [1, 2, 2, 1] = 2 ∧
    ([1, 2, 2, 1] : List ℚ).count 1 = 2 ∧
    ([1, 2, 2, 1] : List ℚ).count 2 = 2 ∧
    maxCount [1, 2, 2, 1] = 2 ∧
    (1 : ℚ) ≠ 2 := by
  refine ⟨?_, ?_, ?_, ?_, by norm_num⟩
  · norm_num [mode, modeLoop, countsUpd]
  · norm_num [List.count_cons, List.count_nil]
  · norm_num [List.count_cons, List.count_nil]
  · norm_num [maxCount, List.count_cons, List.count_nil]

/-- C7 (amended): the merged weather code is a most frequent value of the
contributing list, and ties are resolved in favor of the first value to
reach the winning count while scanning in model order (when each tied
value occurs once, as with one code per model, this is the
first-encountered value); [3, 3, 73] merges to 3. -/
theorem mode_most_frequent (values : List ℚ) (v0 : ℚ) (rest : List ℚ)
    (hval : values = v0 :: rest) :
    mode values ∈ values ∧
    (∀ x, values.count x ≤ values.count (mode values)) ∧
    firstToReach (maxCount values) values (fun _ => 0) = some (mode values) ∧
    mode [3, 3, 73] = 3 := by
  subst hval
  have hne : (v0 :: rest) ≠ [] := by simp
  obtain ⟨hpos, u, hu⟩ := maxCount_attained _ hne
  have hmode : mode (v0 :: rest) = modeLoop (v0 :: rest) (fun _ => 0) v0 0 := rfl
  obtain ⟨w, hft, hml⟩ := modeLoop_firstToReach (v0 :: rest) (fun _ => 0) v0 0
    (maxCount (v0 :: rest))
    (fun _ => Nat.le_refl 0)
    hpos
    (fun v => by simpa using count_le_maxCount _ v)
    ⟨u, by simpa using hu⟩
  have hmw : mode (v0 :: rest) = w := hmode.trans hml
  obtain ⟨hmem, hcnt⟩ := firstToReach_mem _ _ _ _ hft
  simp only [Nat.zero_add] at hcnt
  have hcw : (v0 :: rest).count w = maxCount (v0 :: rest) :=
    le_antisymm (count_le_maxCount _ _) hcnt
  refine ⟨hmw ▸ hmem, ?_, ?_, ?_⟩
  · intro x
    rw [hmw, hcw]
    exact count_le_maxCount _ x
  · rw [hmw]
    exact hft
  · norm_num [mode, modeLoop, countsUpd]

/-- Witness for C7 (amended): the concrete contributing list [3, 3, 73]
merges to 3, and every value's multiplicity is bounded by that of the
mode there. -/
theorem mode_most_frequent_witness :
    mode [3, 3, 73] = 3 ∧
    ([3, 3, 73] : List ℚ).count 73 ≤ ([3, 3, 73] : List ℚ).count (mode [3, 3, 73]) := by
  have h := mode_most_frequent [3, 3, 73] 3 [3, 73] rfl
  exact ⟨h.2.2.2, h.2.1 73⟩

/-- The ((x % 360) + 360) % 360 normalization of the circular mean, on
the atan2 output range: it leaves the value in [0, 360) and only ever
shifts it by 0 or 360. -/
theorem normalize360 (x : ℝ) (h1 : -180 < x) (h2 : x ≤ 180) :
    (jsMod (jsMod x 360 + 360) 360 = x ∨ jsMod (jsMod x 360 + 360) 360 = x + 360) ∧
    0 ≤ jsMod (jsMod x 360 + 360) 360 ∧ jsMod (jsMod x 360 + 360) 360 < 360 := by
  have hA : jsMod x 360 = x := by
    unfold jsMod jsTrunc
    by_cases hx : 0 ≤ x
    · rw [if_pos (div_nonneg hx (by norm_num))]
      have hfl : ⌊x / 360⌋ = 0 := by
        apply Int.floor_eq_zero_iff.mpr
        rw [Set.mem_Ico]
        constructor
        · exact div_nonneg hx (by norm_num)
        · rw [div_lt_one (by norm_num : (0:ℝ) < 360)]
          linarith
      rw [hfl]
      push_cast
      ring
    · push_neg at hx
      rw [if_neg (by
        rw [not_le]
        exact div_neg_of_neg_of_pos hx (by norm_num))]
      have hcl : ⌈x / 360⌉ = 0 := by
        apply Int.ceil_eq_zero_iff.mpr
        rw [Set.mem_Ioc]
        constructor
        · rw [neg_lt, ← neg_div]
          rw [div_lt_one (by norm_num : (0:ℝ) < 360)]
          linarith
        · exact le_of_lt (div_neg_of_neg_of_pos hx (by norm_num))
      rw [hcl]
      push_cast
      ring
  rw [hA]
  by_cases hx : 0 ≤ x
  · have hy : jsMod (x + 360) 360 = x := by
      unfold jsMod jsTrunc
      rw [if_pos (div_nonneg (by linarith) (by norm_num))]
      have hfl : ⌊(x + 360) / 360⌋ = 1 := by
        apply Int.floor_eq_iff.mpr
        constructor
        · push_cast
          rw [le_div_iff₀ (by norm_num : (0:ℝ) < 360)]
          linarith
        · push_cast
          rw [div_lt_iff₀ (by norm_num : (0:ℝ) < 360)]
          linarith
      rw [hfl]
      push_cast
      ring
    rw [hy]
    exact ⟨Or.inl rfl, hx, by linarith⟩
  · push_neg at hx
    have hy : jsMod (x + 360) 360 = x + 360 := by
      unfold jsMod jsTrunc
      rw [if_pos (div_nonneg (by linarith) (by norm_num))]
      have hfl : ⌊(x + 360) / 360⌋ = 0 := by
        apply Int.floor_eq_zero_iff.mpr
        rw [Set.mem_Ico]
        constructor
        · exact div_nonneg (by linarith) (by norm_num)
        · rw [div_lt_one (by norm_num : (0:ℝ) < 360)]
          linarith
      rw [hfl]
      push_cast
      ring
    rw [hy]
    exact ⟨Or.inr rfl, by linarith, by linarith⟩

/-- Unfolding meanAngle on a non-empty list. -/
theorem meanAngle_eq (degrees : List ℝ) (hne : degrees ≠ []) :
    meanAngle degrees
      = jsMod (jsMod (atan2 (sinSumDeg degrees / degrees.length)
          (cosSumDeg degrees / degrees.length) * 180 / Real.pi) 360 + 360) 360 := by
  unfold meanAngle
  rw [if_neg (by simpa [List.length_eq_zero] using hne)]

/-- The two-argument arctangent output scaled to degrees lies in
(-180, 180]. -/
theorem atan2_deg_range (y x : ℝ) :
    -180 < atan2 y x * 180 / Real.pi ∧ atan2 y x * 180 / Real.pi ≤ 180 := by
  have hpi := Real.pi_pos
  have hlow := Complex.neg_pi_lt_arg ⟨x, y⟩
  have hhigh := Complex.arg_le_pi ⟨x, y⟩
  unfold atan2
  constructor
  · rw [lt_div_iff₀ hpi]
    nlinarith
  · rw [div_le_iff₀ hpi]
    nlinarith

/-- C6: for every non-empty list of wind directions, meanAngle is the
normalized vector-decomposition circular mean: the result lies in
[0, 360), and its cosine and sine (in radians) are those of the averaged
unit-mass vector (so the value recovers the angle of the averaged sine
and cosine components via the two-argument arctangent); in particular
350 and 10 degrees merge to 0, not 180. -/
theorem meanAngle_circular_mean :
    (∀ degrees : List ℝ, degrees ≠ [] →
      0 ≤ meanAngle degrees ∧ meanAngle degrees < 360) ∧
    (∀ degrees : List ℝ, degrees ≠ [] →
      (⟨cosSumDeg degrees / degrees.length, sinSumDeg degrees / degrees.length⟩ : ℂ) ≠ 0 →
      Real.cos (toRad (meanAngle degrees))
          = (cosSumDeg degrees / degrees.length)
            / Complex.abs ⟨cosSumDeg degrees / degrees.length,
                sinSumDeg degrees / degrees.length⟩ ∧
      Real.sin (toRad (meanAngle degrees))
          = (sinSumDeg degrees / degrees.length)
            / Complex.abs ⟨cosSumDeg degrees / degrees.length,
                sinSumDeg degrees / degrees.length⟩) ∧
    meanAngle [350, 10] = 0 := by
  have hpi := Real.pi_pos
  have hrange : ∀ degrees : List ℝ, degrees ≠ [] →
      (meanAngle degrees
          = atan2 (sinSumDeg degrees / degrees.length)
              (cosSumDeg degrees / degrees.length) * 180 / Real.pi ∨
        meanAngle degrees
          = atan2 (sinSumDeg degrees / degrees.length)
              (cosSumDeg degrees / degrees.length) * 180 / Real.pi + 360) ∧
      0 ≤ meanAngle degrees ∧ meanAngle degrees < 360 := by
    intro degrees hne
    obtain ⟨hlow, hhigh⟩ := atan2_deg_range (sinSumDeg degrees / degrees.length)
      (cosSumDeg degrees / degrees.length)
    have hnorm := normalize360 _ hlow hhigh
    rw [meanAngle_eq degrees hne]
    exact hnorm
  refine ⟨fun degrees hne => (hrange degrees hne).2, ?_, ?_⟩
  · intro degrees hne hz
    obtain ⟨hd, _, _⟩ := hrange degrees hne
    have hrad : toRad (atan2 (sinSumDeg degrees / degrees.length)
        (cosSumDeg degrees / degrees.length) * 180 / Real.pi)
        = atan2 (sinSumDeg degrees / degrees.length)
            (cosSumDeg degrees / degrees.length) := by
      unfold toRad
      field_simp
    have hcos := Complex.cos_arg hz
    have hsin := Complex.sin_arg
      (⟨cosSumDeg degrees / degrees.length, sinSumDeg degrees / degrees.length⟩ : ℂ)
    rcases hd with h | h
    · rw [h, hrad]
      unfold atan2
      exact ⟨hcos, hsin⟩
    · have hrad' : toRad (atan2 (sinSumDeg degrees / degrees.length)
          (cosSumDeg degrees / degrees.length) * 180 / Real.pi + 360)
          = atan2 (sinSumDeg degrees / degrees.length)
              (cosSumDeg degrees / degrees.length) + 2 * Real.pi := by
        unfold toRad at hrad ⊢
        field_simp at hrad ⊢
        linarith
      rw [h, hrad', Real.cos_add_two_pi, Real.sin_add_two_pi]
      unfold atan2
      exact ⟨hcos, hsin⟩
  · have h350 : toRad 350 = 2 * Real.pi - toRad 10 := by
      unfold toRad
      field_simp
      ring
    have hsin : sinSumDeg [350, 10] = 0 := by
      unfold sinSumDeg
      simp only [List.foldl_cons, List.foldl_nil]
      rw [h350, Real.sin_two_pi_sub]
      ring
    have hcos : cosSumDeg [350, 10] = 2 * Real.cos (toRad 10) := by
      unfold cosSumDeg
      simp only [List.foldl_cons, List.foldl_nil]
      rw [h350, Real.cos_two_pi_sub]
      ring
    have hcpos : 0 < Real.cos (toRad 10) := by
      apply Real.cos_pos_of_mem_Ioo
      rw [Set.mem_Ioo]
      unfold toRad
      constructor
      · nlinarith
      · nlinarith
    rw [meanAngle_eq [350, 10] (by simp), hsin, hcos]
    have hlen : (([350, 10] : List ℝ).length : ℝ) = 2 := by norm_num
    rw [hlen]
    have h0 : (0 : ℝ) / 2 = 0 := by norm_num
    have h2 : 2 * Real.cos (toRad 10) / 2 = Real.cos (toRad 10) := by ring
    rw [h0, h2]
    have harg : atan2 0 (Real.cos (toRad 10)) = 0 := by
      unfold atan2
      have hzc : (⟨Real.cos (toRad 10), 0⟩ : ℂ) = ((Real.cos (toRad 10) : ℝ) : ℂ) := rfl
      rw [hzc]
      exact Complex.arg_ofReal_of_nonneg hcpos.le
    rw [harg]
    have hzero : (0 : ℝ) * 180 / Real.pi = 0 := by
      rw [zero_mul, zero_div]
    rw [hzero]
    obtain ⟨hd, _, hlt⟩ := normalize360 0 (by norm_num) (by norm_num)
    rcases hd with h | h
    · simpa using h
    · rw [h] at hlt
      norm_num at hlt

/-- Witness for C6: the concrete list [350, 10] is non-empty, its
circular mean is 0 and lies in [0, 360). -/
theorem meanAngle_circular_mean_witness :
    ([350, 10] : List ℝ) ≠ [] ∧
    0 ≤ meanAngle [350, 10] ∧ meanAngle [350, 10] < 360 ∧
    meanAngle [350, 10] = 0 := by
  have h := meanAngle_circular_mean.1 [350, 10] (by simp)
  exact ⟨by simp, h.1, h.2, meanAngle_circular_mean.2.2⟩

/-- The code-unit comparison is total. -/
theorem jsLeChars_total (as : List Char) :
    ∀ bs, jsLeChars as bs = true ∨ jsLeChars bs as = true := by
  induction as with
  | nil => intro bs; exact Or.inl rfl
  | cons a as ih =>
    intro bs
    cases bs with
    | nil => exact Or.inr rfl
    | cons b bs =>
      unfold jsLeChars
      rcases lt_trichotomy a b with hab | hab | hab
    
      · left
        rw [if_pos hab]
      · subst hab
        simp only [lt_self_iff_false, if_false]
        exact ih bs
      · right
        rw [if_pos hab]

/-- The code-unit comparison is transitive. -/
theorem jsLeChars_trans (as : List Char) :
    ∀ bs cs, jsLeChars as bs = true → jsLeChars bs cs = true →
      jsLeChars as cs = true := by
  induction as with
  | nil => intro bs cs _ _; rfl
  | cons a as ih =>
    intro bs cs hab hbc
    cases bs with
    | nil => simp [jsLeChars] at hab
    | cons b bs =>
      cases cs with
      | nil => simp [jsLeChars] at hbc
      | cons c cs =>
        unfold jsLeChars at hab hbc ⊢
        rcases lt_trichotomy a b with h1 | h1 | h1
        · rcases lt_trichotomy b c with h2 | h2 | h2
          · rw [if_pos (lt_trans h1 h2)]
          · subst h2
            rw [if_pos h1]
          · rw [if_neg (lt_asymm h2), if_pos h2] at hbc
            simp at hbc
        · subst h1
          rw [if_neg (lt_irrefl a), if_neg (lt_irrefl a)] at hab
          rcases lt_trichotomy a c with h2 | h2 | h2
          · rw [if_pos h2]
          · subst h2
            rw [if_neg (lt_irrefl a), if_neg (lt_irrefl a)] at hbc ⊢
            exact ih bs cs hab hbc
          · rw [if_neg (lt_asymm h2), if_pos h2] at hbc
            simp at hbc
        · rw [if_neg (lt_asymm h1), if_pos h1] at hab
          simp at hab

instance : IsTotal String (fun a b => jsStrLe a b = true) :=
  ⟨fun a b => jsLeChars_total a.data b.data⟩

instance : IsTrans String (fun a b => jsStrLe a b = true) :=
  ⟨fun a b c => jsLeChars_trans a.data b.data c.data⟩

/-- Membership in the running union of the time axes. -/
theorem mem_foldl_append (tss : List (List String)) :
    ∀ (init : List String) (x : String),
      x ∈ tss.foldl (· ++ ·) init ↔ x ∈ init ∨ ∃ ts ∈ tss, x ∈ ts := by
  induction tss with
  | nil => intro init x; simp
  | cons ts tss ih =>
    intro init x
    simp only [List.foldl_cons]
    rw [ih]
    simp only [List.mem_append, List.mem_cons]
    constructor
    · rintro (⟨h | h⟩ | ⟨u, hu, hx⟩)
      · exact Or.inl h
      · exact Or.inr ⟨ts, Or.inl rfl, h⟩
      · exact Or.inr ⟨u, Or.inr hu, hx⟩
    · rintro (h | ⟨u, (rfl | hu), hx⟩)
      · exact Or.inl (Or.inl h)
      · exact Or.inl (Or.inr hx)
      · exact Or.inr ⟨u, hu, hx⟩

/-- The sorted time union is sorted, duplicate free, and carries exactly
the timestamps occurring in some model. -/
theorem sortedUnionTimes_spec (tss : List (List String)) :
    List.Sorted (fun a b => jsStrLe a b = true) (sortedUnionTimes tss) ∧
    (sortedUnionTimes tss).Nodup ∧
    (∀ t, t ∈ sortedUnionTimes tss ↔ ∃ ts ∈ tss, t ∈ ts) := by
  refine ⟨List.sorted_insertionSort _ _, ?_, ?_⟩
  · exact ((List.perm_insertionSort _ _).nodup_iff).mpr (List.nodup_dedup _)
  · intro t
    unfold sortedUnionTimes
    rw [(List.perm_insertionSort _ _).mem_iff, List.mem_dedup, mem_foldl_append]
    simp

/-- Transposed rows keep exactly the times passing the row filter. -/
theorem filterMap_rows_times {β : Type} (times : List String) (f : String → Option β)
    (timeOf : β → String) (p : String → Bool)
    (hf : ∀ t, (∀ r, f t = some r → timeOf r = t) ∧ (f t = none ↔ p t = false)) :
    (times.filterMap f).map timeOf = times.filter p := by
  induction times with
  | nil => rfl
  | cons t ts ih =>
    simp only [List.filterMap_cons, List.filter_cons]
    cases hft : f t with
    | none =>
      rw [((hf t).2.mp hft)]
      simpa using ih
    | some r =>
      have hpt : p t = true := by
        cases hpt' : p t with
        | false => exact absurd ((hf t).2.mpr hpt') (by simp [hft])
        | true => rfl
      simp only [List.map_cons, (hf t).1 r hft, hpt, if_true]
      rw [ih]

/-- A field collects no contributor at t exactly when no model has a
non-null entry for it at t. -/
theorem collectField_nil_iff {σ : Type} (models : List σ) (timeOf : σ → List String)
    (f : σ → List (Option ℚ)) (t : String) :
    (collectField models timeOf f t = []) ↔
      (models.any (fun m => (entryAt (f m) (timeIndex (timeOf m) t)).isSome) = false) := by
  unfold collectField
  rw [List.filterMap_eq_nil_iff, List.any_eq_false]
  constructor
  · intro h m hm
    rw [h m hm]
    simp
  · intro h m hm
    have := h m hm
    simpa [Option.not_isSome_iff_eq_none] using this

/-- The merged hourly row exists exactly when some model contributed a
temperature, and it carries its timestamp. -/
theorem hourlyRow_cases (models : List RawHourly) (hasSnowDepth : Bool) (t : String) :
    (∀ r, hourlyRow models hasSnowDepth t = some r → r.time = t) ∧
    (hourlyRow models hasSnowDepth t = none ↔
      models.any (fun m =>
        (entryAt m.temperature_2m (timeIndex m.time t)).isSome) = false) := by
  unfold hourlyRow
  by_cases h : (collectField models RawHourly.time (·.temperature_2m) t).isEmpty
  · rw [if_pos h]
    refine ⟨fun r hr => by simp at hr, ?_⟩
    simp only [List.isEmpty_iff] at h
    simp [(collectField_nil_iff models RawHourly.time (·.temperature_2m) t).mp h]
  · rw [if_neg h]
    refine ⟨fun r hr => by
      simp only [Option.some.injEq] at hr
      rw [← hr], ?_⟩
    simp only [List.isEmpty_iff] at h
    constructor
    · intro hcontra
      simp at hcontra
    · intro hfalse
      exact absurd ((collectField_nil_iff models RawHourly.time
        (·.temperature_2m) t).mpr hfalse) h

/-- The merged daily row exists exactly when some model contributed a
temperature maximum, and it carries its date. -/
theorem dailyRow_cases (models : List RawDaily) (t : String) :
    (∀ r, dailyRow models t = some r → r.time = t) ∧
    (dailyRow models t = none ↔
      models.any (fun m =>
        (entryAt m.temperature_2m_max (timeIndex m.time t)).isSome) = false) := by
  unfold dailyRow
  by_cases h : (collectField models RawDaily.time (·.temperature_2m_max) t).isEmpty
  · rw [if_pos h]
    refine ⟨fun r hr => by simp at hr, ?_⟩
    simp only [List.isEmpty_iff] at h
    simp [(collectField_nil_iff models RawDaily.time (·.temperature_2m_max) t).mp h]
  · rw [if_neg h]
    refine ⟨fun r hr => by
      simp only [Option.some.injEq] at hr
      rw [← hr], ?_⟩
    simp only [List.isEmpty_iff] at h
    constructor
    · intro hcontra
      simp at hcontra
    · intro hfalse
      exact absurd ((collectField_nil_iff models RawDaily.time
        (·.temperature_2m_max) t).mpr hfalse) h

/-- C3: for two or more models, the merged output's time axis (hourly
and daily alike) is exactly the sorted union of the input time axes
restricted to the timestamps at which at least one model reported a
non-null primary-field value (temperature_2m hourly, temperature_2m_max
daily); the axis is sorted and duplicate free, and a timestamp occurs in
it iff it occurs in some input and has a contributing model — so
zero-contribution timestamps appear nowhere. -/
theorem average_time_union :
    (∀ models : List RawHourly, 2 ≤ models.length →
      ∃ out, averageHourlyArrays models = some out ∧
        out.time = (sortedUnionTimes (models.map (·.time))).filter
          (fun t => models.any (fun m =>
            (entryAt m.temperature_2m (timeIndex m.time t)).isSome)) ∧
        List.Sorted (fun a b => jsStrLe a b = true) out.time ∧
        out.time.Nodup ∧
        (∀ t, t ∈ out.time ↔ ((∃ m ∈ models, t ∈ m.time) ∧
          models.any (fun m =>
            (entryAt m.temperature_2m (timeIndex m.time t)).isSome) = true))) ∧
    (∀ models : List RawDaily, 2 ≤ models.length →
      ∃ out, averageDailyArrays models = some out ∧
        out.time = (sortedUnionTimes (models.map (·.time))).filter
          (fun t => models.any (fun m =>
            (entryAt m.temperature_2m_max (timeIndex m.time t)).isSome)) ∧
        List.Sorted (fun a b => jsStrLe a b = true) out.time ∧
        out.time.Nodup ∧
        (∀ t, t ∈ out.time ↔ ((∃ m ∈ models, t ∈ m.time) ∧
          models.any (fun m =>
            (entryAt m.temperature_2m_max (timeIndex m.time t)).isSome) = true))) := by
  constructor
  · intro models hlen
    obtain ⟨m1, m2, rest, rfl⟩ : ∃ m1 m2 rest, models = m1 :: m2 :: rest := by
      rcases models with _ | ⟨m1, _ | ⟨m2, rest⟩⟩
      · simp at hlen
      · simp at hlen
      · exact ⟨m1, m2, rest, rfl⟩
    set models := m1 :: m2 :: rest with hmodels
    set p := fun t => models.any (fun m =>
      (entryAt m.temperature_2m (timeIndex m.time t)).isSome) with hp
    have hproj : ((sortedUnionTimes (models.map (·.time))).filterMap
        (hourlyRow models (models.any (fun m =>
          (m.snow_depth.getD []).length > 0)))).map HourlyRow.time
        = (sortedUnionTimes (models.map (·.time))).filter p := by
      apply filterMap_rows_times
      intro t
      refine ⟨(hourlyRow_cases models _ t).1, ?_⟩
      rw [(hourlyRow_cases models _ t).2]
    refine ⟨_, rfl, hproj, ?_, ?_, ?_⟩
    · rw [hproj]
      exact List.Sorted.filter p (sortedUnionTimes_spec (models.map (·.time))).1
    · rw [hproj]
      exact List.Nodup.filter p (sortedUnionTimes_spec (models.map (·.time))).2.1
    · intro t
      rw [hproj, List.mem_filter,
        (sortedUnionTimes_spec (models.map (·.time))).2.2 t]
      simp [hp]
  · intro models hlen
    obtain ⟨m1, m2, rest, rfl⟩ : ∃ m1 m2 rest, models = m1 :: m2 :: rest := by
      rcases models with _ | ⟨m1, _ | ⟨m2, rest⟩⟩
      · simp at hlen
      · simp at hlen
      · exact ⟨m1, m2, rest, rfl⟩
    set models := m1 :: m2 :: rest with hmodels
    set p := fun t => models.any (fun m =>
      (entryAt m.temperature_2m_max (timeIndex m.time t)).isSome) with hp
    have hproj : ((sortedUnionTimes (models.map (·.time))).filterMap
        (dailyRow models)).map DailyRow.time
        = (sortedUnionTimes (models.map (·.time))).filter p := by
      apply filterMap_rows_times
      intro t
      refine ⟨(dailyRow_cases models t).1, ?_⟩
      rw [(dailyRow_cases models t).2]
    refine ⟨_, rfl, hproj, ?_, ?_, ?_⟩
    · rw [hproj]
      exact List.Sorted.filter p (sortedUnionTimes_spec (models.map (·.time))).1
    · rw [hproj]
      exact List.Nodup.filter p (sortedUnionTimes_spec (models.map (·.time))).2.1
    · intro t
      rw [hproj, List.mem_filter,
        (sortedUnionTimes_spec (models.map (·.time))).2.2 t]
      simp [hp]

/-- A sample model covering hours 00 and 01, with a null temperature at
hour 01. -/
def sampleHourlyA : RawHourly :=
  { time := ["2024-01-01T00:00", "2024-01-01T01:00"]
    temperature_2m := [some 1, none]
    apparent_temperature := [none, none]
    relative_humidity_2m := [none, none]
    precipitation := [some 2, none]
    rain := [none, none]
    snowfall := [none, none]
    precipitation_probability := [none, none]
    weather_code := [none, none]
    wind_speed_10m := [none, none]
    wind_direction_10m := [none, none]
    wind_gusts_10m := [none, none]
    freezing_level_height := [none, none]
    snow_depth := none }

/-- A sample model covering hours 01 and 02, with a null temperature at
hour 01. -/
def sampleHourlyB : RawHourly :=
  { time := ["2024-01-01T01:00", "2024-01-01T02:00"]
    temperature_2m := [none, some 3]
    apparent_temperature := [none, none]
    relative_humidity_2m := [none, none]
    precipitation := [none, none]
    rain := [none, none]
    snowfall := [none, none]
    precipitation_probability := [none, none]
    weather_code := [none, none]
    wind_speed_10m := [none, none]
    wind_gusts_10m := [none, none]
    wind_direction_10m := [none, none]
    freezing_level_height := [none, none]
    snow_depth := none }

/-- Witness for C3: merging the two sample models keeps hours 00 and 02
(each contributed by one model) and drops hour 01, where both models
reported null temperature. -/
theorem average_time_union_witness :
    2 ≤ ([sampleHourlyA, sampleHourlyB] : List RawHourly).length ∧
    ∃ out, averageHourlyArrays [sampleHourlyA, sampleHourlyB] = some out ∧
      out.time = ["2024-01-01T00:00", "2024-01-01T02:00"] := by
  obtain ⟨out, hout, htime, _⟩ :=
    average_time_union.1 [sampleHourlyA, sampleHourlyB] (by decide)
  refine ⟨by decide, out, hout, ?_⟩
  rw [htime]
  decide
